import Mathlib

/-!
# SOCKS5 relay (`socks5/server.js`): wire handling and session behaviour

A shallow embedding of the `SOCKS5Server` class.  A `Buffer` is a list of byte
values, a JavaScript string is a Lean `String`, and every promise-returning
method is embedded by the body of its one-shot `data` handler.  The session
(`handleClient`) is a transition function over the events the Node runtime can
deliver to one client connection.
-/

namespace Socks5

/-! ## Buffers and the library functions the server calls -/

/-- A Node `Buffer`: the sequence of its byte values. -/
abbrev Buffer := List Nat

/-- Every element is a byte value, as in any buffer received from a socket. -/
abbrev Buffer.isBytes (data : Buffer) : Prop := ∀ b ∈ data, b < 256

/-- Semantics of `buf.slice(start, stop)` for non-negative integer bounds:
the bounds are clamped to the buffer. -/
def Buffer.slice (data : Buffer) (start stop : Nat) : Buffer :=
  (data.take stop).drop start

/-- Semantics of `buf.readUInt16BE(offset)`: `none` stands for the `RangeError`
raised when either of the two bytes lies outside the buffer. -/
def readUInt16BE (data : Buffer) (offset : Nat) : Option Nat :=
  match data[offset]?, data[offset + 1]? with
  | some first, some last => some (first * 256 + last)
  | _, _ => none

/-- Semantics of `Number.prototype.toString(16)` on a non-negative integer. -/
def toString16 (n : Nat) : String := String.mk (Nat.toDigits 16 n)

/-- The sixteen lowercase hexadecimal digits. -/
def lowerHexDigit (d : Nat) : Char := "0123456789abcdef".data.getD d '0'

/-- Lowercase hexadecimal rendering without leading zeros of a 16-bit value, as
the specification words it: the four hexadecimal digits, most significant
first, with the leading zero digits dropped and the last digit always kept. -/
def hexGroup (v : Nat) : String :=
  String.mk (([v / 4096 % 16, v / 256 % 16, v / 16 % 16].dropWhile (fun d => d = 0) ++
    [v % 16]).map lowerHexDigit)

/-- Template-literal rendering of `data[i]`: a number in decimal, or the text
`undefined` when the index is outside the buffer. -/
def renderElem : Option Nat → String
  | some b => toString b
  | none => "undefined"

/-- Semantics of `haystack.includes(needle)` on strings. -/
def jsIncludes (haystack needle : String) : Bool :=
  haystack.data.tails.any (fun t => needle.data.isPrefixOf t)

/-- Semantics of `address.split('.')`. -/
def splitDot : List Char → List (List Char)
  | [] => [[]]
  | c :: cs =>
    if c = '.' then [] :: splitDot cs
    else
      match splitDot cs with
      | [] => [[c]]
      | p :: ps => (c :: p) :: ps

/-- White space skipped by `parseInt` (ECMAScript `StrWhiteSpaceChar`). -/
def isStrWhiteSpace (c : Char) : Bool :=
  let v := c.toNat
  v = 9 || v = 10 || v = 11 || v = 12 || v = 13 || v = 32 || v = 0xA0 || v = 0x1680 ||
  (0x2000 ≤ v && v ≤ 0x200A) || v = 0x2028 || v = 0x2029 || v = 0x202F || v = 0x205F ||
  v = 0x3000 || v = 0xFEFF

/-- Value of a character as a digit in the given radix, if it is one. -/
def digitValue (radix : Nat) (c : Char) : Option Nat :=
  let v := c.toNat
  let d :=
    if 48 ≤ v ∧ v ≤ 57 then some (v - 48)
    else if 97 ≤ v ∧ v ≤ 122 then some (v - 87)
    else if 65 ≤ v ∧ v ≤ 90 then some (v - 55)
    else none
  match d with
  | some k => if k < radix then some k else none
  | none => none

/-- The longest prefix of digits of the radix, as digit values. -/
def takeDigits (radix : Nat) : List Char → List Nat
  | [] => []
  | c :: cs =>
    match digitValue radix c with
    | some k => k :: takeDigits radix cs
    | none => []

/-- Semantics of `parseInt(string)` with no radix argument: leading white space
is skipped, an optional sign and an optional `0x` prefix are read, then the
longest run of digits; `none` stands for `NaN`.  Exact on the integers a double
represents exactly. -/
def parseInt (s : List Char) : Option Int :=
  let s1 := s.dropWhile isStrWhiteSpace
  let (negative, s2) :=
    match s1 with
    | '-' :: r => (true, r)
    | '+' :: r => (false, r)
    | _ => (false, s1)
  let (radix, s3) :=
    match s2 with
    | '0' :: 'x' :: r => (16, r)
    | '0' :: 'X' :: r => (16, r)
    | _ => (10, s2)
  let ds := takeDigits radix s3
  if ds.isEmpty then none
  else
    let magnitude : Nat := ds.foldl (fun acc d => acc * radix + d) 0
    some (if negative then - (magnitude : Int) else (magnitude : Int))

/-- Storing the result of `parseInt` into a `Buffer` element: `NaN` is stored
as 0 and an integer modulo 256. -/
def storeByte : Option Int → Nat
  | none => 0
  | some v => (v % 256).toNat

/-- Semantics of `buf.writeUInt16BE(value, 8)` on a 10-byte buffer: the two
bytes written, or `none` for the `RangeError` on a value above 65535. -/
def writeUInt16BE (value : Nat) : Option (List Nat) :=
  if value ≤ 65535 then some [value / 256, value % 256] else none

/-! ## Protocol constants -/

def SOCKS_VERSION : Nat := 0x05
def SOCKS_AUTH_NONE : Nat := 0x00
def SOCKS_AUTH_USER_PASS : Nat := 0x02
def SOCKS_CMD_CONNECT : Nat := 0x01
def SOCKS_ATYP_IPV4 : Nat := 0x01
def SOCKS_ATYP_DOMAIN : Nat := 0x03
def SOCKS_ATYP_IPV6 : Nat := 0x04

/-! ## `sendConnectionResponse` -/

/-- The buffer `sendConnectionResponse(clientSocket, status, address, port)`
writes to the client; an absent (`undefined`) address or port takes the default
`'0.0.0.0'` or `0`.  `none` stands for the `RangeError` of `writeUInt16BE`,
raised before anything is written. -/
def sendConnectionResponse (status : Nat) (address : Option String) (port : Option Nat) :
    Option Buffer :=
  let address := address.getD "0.0.0.0"
  let port := port.getD 0
  let ipParts := splitDot address.data
  let addr : List Nat :=
    if ipParts.length = 4 then
      [storeByte (parseInt (ipParts.getD 0 [])), storeByte (parseInt (ipParts.getD 1 [])),
       storeByte (parseInt (ipParts.getD 2 [])), storeByte (parseInt (ipParts.getD 3 []))]
    else [0, 0, 0, 0]
  match writeUInt16BE port with
  | some portBytes => some ([SOCKS_VERSION, status % 256, 0x00, SOCKS_ATYP_IPV4] ++ addr ++ portBytes)
  | none => none

/-! ## `receiveConnectRequest` -/

/-- The object `{ host, port }` a connect request resolves to. -/
structure ConnectRequest where
  host : String
  port : Nat
  deriving DecidableEq, Repr

/-- What the `data` handler of `receiveConnectRequest` does with one chunk. -/
inductive RequestOutcome where
  /-- `resolve({ host, port })`; `warned` records the `console.warn` about a
  domain outside the GeForce Now list. -/
  | resolved (request : ConnectRequest) (warned : Bool)
  /-- The reply was written with `sendConnectionResponse` and `resolve(null)` ran. -/
  | refused (reply : Buffer)
  /-- A `RangeError` left the handler. -/
  | thrown
  deriving DecidableEq, Repr

def gfnDomains : List String :=
  ["play.geforcenow.com", "gfn-web.nvidia.com", "api.geforcenow.com", "auth.geforcenow.com"]

/-- The `isGeForceNow` test of `receiveConnectRequest`. -/
def isGeForceNow (targetHost : String) : Bool :=
  gfnDomains.any (fun domain => jsIncludes targetHost domain || jsIncludes domain targetHost)

/-- The `for` loop of the IPv6 case: the eight groups, or `none` when a
`readUInt16BE` raises. -/
def ipv6Parts (data : Buffer) : Option (List String) :=
  (List.range 8).mapM (fun i => (readUInt16BE data (4 + i * 2)).map toString16)

/-- The reply-and-`resolve(null)` path of the handler. -/
def refuse (status : Nat) : RequestOutcome :=
  match sendConnectionResponse status none none with
  | some reply => RequestOutcome.refused reply
  | none => RequestOutcome.thrown

/-- The tail of the handler once `targetHost` and `offset` are set. -/
def finishRequest (data : Buffer) (addressType : Nat) (targetHost : String) (offset : Nat) :
    RequestOutcome :=
  match readUInt16BE data offset with
  | none => RequestOutcome.thrown
  | some targetPort =>
    RequestOutcome.resolved ⟨targetHost, targetPort⟩
      (!isGeForceNow targetHost && addressType == SOCKS_ATYP_DOMAIN)

/-- The `data` handler of `receiveConnectRequest`; `bufToString` is
`Buffer.prototype.toString` (UTF-8 decoding). -/
def receiveConnectRequest (bufToString : Buffer → String) (data : Buffer) : RequestOutcome :=
  if data.length < 7 ∨ data[0]? ≠ some SOCKS_VERSION ∨ data[1]? ≠ some SOCKS_CMD_CONNECT then
    refuse 0x07
  else
    let addressType := data[3]?.getD 0
    if addressType = SOCKS_ATYP_IPV4 then
      let targetHost := renderElem data[4]? ++ "." ++ renderElem data[5]? ++ "." ++
        renderElem data[6]? ++ "." ++ renderElem data[7]?
      finishRequest data addressType targetHost 8
    else if addressType = SOCKS_ATYP_DOMAIN then
      let domainLength := data[4]?.getD 0
      let targetHost := bufToString (data.slice 5 (5 + domainLength))
      finishRequest data addressType targetHost (5 + domainLength)
    else if addressType = SOCKS_ATYP_IPV6 then
      match ipv6Parts data with
      | none => RequestOutcome.thrown
      | some parts => finishRequest data addressType (String.intercalate ":" parts) 20
    else
      refuse 0x08

/-- ASCII decoding, with which `Buffer.prototype.toString` agrees on 7-bit input. -/
def asciiToString (data : Buffer) : String :=
  String.mk (data.map Char.ofNat)

/-! ## `negotiateAuth` and `authenticateUser` -/

/-- The `data` handler of `negotiateAuth`: `some methods` for `resolve(methods)`,
`none` for `reject(new Error('Invalid SOCKS version'))`. -/
def negotiateAuth (data : Buffer) : Option (List Nat) :=
  if data.length < 3 ∨ data[0]? ≠ some SOCKS_VERSION then none
  else
    let methodCount := data[1]?.getD 0
    some (data.slice 2 (2 + methodCount))

/-- The fields of the server object the session reads; an absent user name or
password is `undefined`. -/
structure Config where
  auth : Bool
  username : Option String
  password : Option String

/-- The `data` handler of `authenticateUser`: the bytes it writes to the client
and the value it resolves with.  When the password-length byte is missing the
slice bound is `NaN` and the password slice is empty. -/
def authenticateUser (bufToString : Buffer → String) (cfg : Config) (data : Buffer) :
    Buffer × Bool :=
  if data.length < 3 ∨ data[0]? ≠ some 0x01 then ([0x01, 0xFF], false)
  else
    let usernameLength := data[1]?.getD 0
    let username := bufToString (data.slice 2 (2 + usernameLength))
    let password :=
      match data[2 + usernameLength]? with
      | some passwordLength =>
        bufToString (data.slice (3 + usernameLength) (3 + usernameLength + passwordLength))
      | none => bufToString []
    let isValid := decide (some username = cfg.username) && decide (some password = cfg.password)
    ([0x01, if isValid then 0x00 else 0xFF], isValid)

/-! ## The session: `handleClient`, `establishConnection`, `connectToTarget` -/

/-- The calls a session makes on its two sockets, in program order. -/
inductive Effect where
  /-- `clientSocket.write(bytes)`. -/
  | write (bytes : Buffer)
  /-- `clientSocket.end()`. -/
  | endClient
  /-- `clientSocket.destroy()`. -/
  | destroyClient
  /-- `socket.connect(port, host, ...)` inside `connectToTarget`. -/
  | connect (host : String) (port : Nat)
  /-- `clientSocket.pipe(targetSocket); targetSocket.pipe(clientSocket)`. -/
  | pipe
  /-- `destroy()` on the target socket. -/
  | destroyTarget
  /-- An exception left a `data` handler, outside every `try`. -/
  | uncaught
  deriving DecidableEq, Repr

/-- The promise `handleClient` is currently awaiting. -/
inductive Phase where
  | negotiating
  | authenticating
  | awaitingRequest
  | connecting
  | relaying
  | closed
  | crashed
  deriving DecidableEq, Repr

/-- The three `setTimeout` timers of a session: 10 s in `negotiateAuth`, 10 s in
`receiveConnectRequest`, 15 s in `connectToTarget`. -/
inductive Timer where
  | negotiation
  | request
  | dial
  deriving DecidableEq, Repr

/-- What the runtime can deliver to a session. -/
inductive Event where
  /-- A `data` chunk on the client socket. -/
  | data (chunk : Buffer)
  /-- The connect callback of the target socket, which then has the given
  `localAddress` and `localPort`. -/
  | dialSucceeded (localAddress : Option String) (localPort : Option Nat)
  /-- An `error` on the target socket. -/
  | dialFailed
  /-- A timer callback. -/
  | timerFired (t : Timer)
  deriving DecidableEq, Repr

/-- One client connection inside `handleClient`: the awaited promise, the calls
made so far, and which timers are set and have not fired. -/
structure Session where
  phase : Phase
  effects : List Effect
  negotiationTimer : Bool
  requestTimer : Bool
  dialTimer : Bool
  deriving DecidableEq, Repr

/-- The session right after `handleClient` called `negotiateAuth`. -/
def Session.init : Session :=
  { phase := Phase.negotiating, effects := [], negotiationTimer := true,
    requestTimer := false, dialTimer := false }

/-- Appending calls and moving to another phase. -/
def Session.emit (s : Session) (effs : List Effect) (phase : Phase) : Session :=
  { s with effects := s.effects ++ effs, phase := phase }

/-- The `catch` of `handleClient`. -/
def handleClientCatch (s : Session) : Session :=
  s.emit [Effect.destroyClient] Phase.closed

/-- The call `this.receiveConnectRequest(clientSocket)`: registers the handler
and starts the request timer. -/
def startRequest (s : Session) : Session :=
  { s with phase := Phase.awaitingRequest, requestTimer := true }

/-- The body of `handleClient` between the two awaits of step 1 and step 2. -/
def afterNegotiation (cfg : Config) (s : Session) (authMethods : List Nat) : Session :=
  if cfg.auth ∧ SOCKS_AUTH_USER_PASS ∈ authMethods then
    { s with phase := Phase.authenticating }
  else if SOCKS_AUTH_NONE ∉ authMethods then
    s.emit [Effect.write [SOCKS_VERSION, 0xFF], Effect.endClient] Phase.closed
  else
    startRequest (s.emit [Effect.write [SOCKS_VERSION, SOCKS_AUTH_NONE]] s.phase)

/-- The `catch` of `establishConnection`. -/
def establishCatch (s : Session) : Session :=
  match sendConnectionResponse 0x01 none none with
  | some reply => s.emit [Effect.write reply, Effect.endClient] Phase.closed
  | none => handleClientCatch s

/-- The `try` of `establishConnection` after `connectToTarget` resolved. -/
def establishSuccess (s : Session) (localAddress : Option String) (localPort : Option Nat) :
    Session :=
  match sendConnectionResponse 0x00 localAddress localPort with
  | some reply => s.emit [Effect.write reply, Effect.pipe] Phase.relaying
  | none => establishCatch s

/-- The call `this.connectToTarget(request)`. -/
def connectToTarget (s : Session) (request : ConnectRequest) : Session :=
  { s with effects := s.effects ++ [Effect.connect request.host request.port],
           phase := Phase.connecting, dialTimer := true }

/-- A `data` chunk on the client socket, given to the `once('data')` handler
that is registered in the current phase. -/
def onData (bufToString : Buffer → String) (cfg : Config) (s : Session) (chunk : Buffer) :
    Session :=
  match s.phase with
  | Phase.negotiating =>
    match negotiateAuth chunk with
    | none => handleClientCatch s
    | some authMethods => afterNegotiation cfg s authMethods
  | Phase.authenticating =>
    match authenticateUser bufToString cfg chunk with
    | (written, true) => startRequest (s.emit [Effect.write written] s.phase)
    | (written, false) => s.emit [Effect.write written, Effect.endClient] Phase.closed
  | Phase.awaitingRequest =>
    match receiveConnectRequest bufToString chunk with
    | RequestOutcome.resolved request _ => connectToTarget s request
    | RequestOutcome.refused reply => s.emit [Effect.write reply, Effect.endClient] Phase.closed
    | RequestOutcome.thrown => s.emit [Effect.uncaught] Phase.crashed
  | _ => s

/-- A timer callback. -/
def onTimer (s : Session) : Timer → Session
  | Timer.negotiation =>
    if s.negotiationTimer then
      let s1 := { s with negotiationTimer := false }
      if s1.phase = Phase.negotiating then handleClientCatch s1 else s1
    else s
  | Timer.request =>
    if s.requestTimer then
      let s1 := { s with requestTimer := false }
      if s1.phase = Phase.awaitingRequest then handleClientCatch s1 else s1
    else s
  | Timer.dial =>
    if s.dialTimer then
      let s1 := { s with dialTimer := false, effects := s.effects ++ [Effect.destroyTarget] }
      if s1.phase = Phase.connecting then establishCatch s1
      else if s1.phase = Phase.relaying then s1.emit [Effect.destroyClient] Phase.closed
      else s1
    else s

/-- One transition of a session.  After an uncaught exception nothing more is
delivered. -/
def step (bufToString : Buffer → String) (cfg : Config) (s : Session) : Event → Session
  | Event.data chunk => onData bufToString cfg s chunk
  | Event.dialSucceeded localAddress localPort =>
    if s.phase = Phase.connecting then establishSuccess s localAddress localPort else s
  | Event.dialFailed =>
    if s.phase = Phase.connecting then establishCatch s
    else if s.phase = Phase.relaying then s.emit [Effect.destroyClient] Phase.closed
    else s
  | Event.timerFired t => if s.phase = Phase.crashed then s else onTimer s t

/-- A run: the events delivered one after the other. -/
def run (bufToString : Buffer → String) (cfg : Config) (s : Session) (events : List Event) :
    Session :=
  events.foldl (step bufToString cfg) s

/-- The session `handleClient` reaches on the given events. -/
def handleClient (bufToString : Buffer → String) (cfg : Config) (events : List Event) : Session :=
  run bufToString cfg Session.init events

/-- The 10-byte buffers written to the client: the connect replies. -/
def replies : List Effect → List Buffer
  | [] => []
  | Effect.write bytes :: rest => if bytes.length = 10 then bytes :: replies rest else replies rest
  | _ :: rest => replies rest

/-- Whether a written buffer is a connect reply with status 0x00. -/
def isSuccessReply (bytes : Buffer) : Prop := bytes.length = 10 ∧ bytes[1]? = some 0x00

/-- Every start of piping comes after the write of a success reply. -/
def PipedAfterSuccess (effects : List Effect) : Prop :=
  ∀ before after, effects = before ++ Effect.pipe :: after →
    ∃ bytes, Effect.write bytes ∈ before ∧ isSuccessReply bytes

/-- The calls other than `destroy()` on the target socket. -/
def visible (effects : List Effect) : List Effect :=
  effects.filter (fun e => e ≠ Effect.destroyTarget)

/-- No connect reply but at most one, and piping only after a success reply. -/
def Safe (effects : List Effect) : Prop :=
  (replies effects).length ≤ 1 ∧ PipedAfterSuccess effects

/-- What holds of a session in each phase, on every run of `handleClient`. -/
def Inv (s : Session) : Prop :=
  match s.phase with
  | Phase.negotiating => s.dialTimer = false ∧ s.effects = []
  | Phase.authenticating => s.dialTimer = false ∧ s.effects = []
  | Phase.awaitingRequest =>
    s.dialTimer = false ∧ ∃ w, s.effects = [Effect.write w] ∧ w.length = 2
  | Phase.connecting =>
    s.dialTimer = true ∧
      ∃ w host port, s.effects = [Effect.write w, Effect.connect host port] ∧ w.length = 2
  | Phase.crashed => ∃ w, s.effects = [Effect.write w, Effect.uncaught] ∧ w.length = 2
  | Phase.relaying =>
    ∃ w host port reply,
      s.effects = [Effect.write w, Effect.connect host port, Effect.write reply, Effect.pipe] ∧
        w.length = 2 ∧ isSuccessReply reply
  | Phase.closed => Safe s.effects

end Socks5

/-! # HTTPS proxy API (`api/index.js`)

The route handler `handleProxy`, as a function of the three query parameters it
reads.  URL parsing, the two URL encoders and the configured endpoints are
parameters. -/

namespace ProxyApi

/-- Semantics of `s.startsWith(p)`. -/
def startsWith (s p : String) : Bool := p.data.isPrefixOf s.data

/-- Semantics of `s.endsWith(p)`. -/
def endsWith (s p : String) : Bool := p.data.isSuffixOf s.data

/-- Semantics of `s.slice(2)`. -/
def slice2 (s : String) : String := String.mk (s.data.drop 2)

def GEFORCE_DOMAINS : List String :=
  ["play.geforcenow.com", "gfn-web.nvidia.com", "api.geforcenow.com", "auth.geforcenow.com",
    "*.geforcenow.com"]

/-- The callback given to `GEFORCE_DOMAINS.some`. -/
def domainMatches (targetDomain domain : String) : Bool :=
  if startsWith domain "*." then endsWith targetDomain (slice2 domain)
  else decide (targetDomain = domain)

/-- The `isGeForceNow` test of `handleProxy`. -/
def isGeForceNow (targetDomain : String) : Bool :=
  GEFORCE_DOMAINS.any (domainMatches targetDomain)

/-- The two entries of `PROXY_BACKENDS`. -/
inductive Backend where
  | ultraviolet
  | scramjet
  deriving DecidableEq, Repr

/-- The value of `PROXY_BACKENDS[backend]`: an own entry, a property inherited
from `Object.prototype` (truthy, with no `encodeUrl`), or `undefined`. -/
inductive BackendLookup where
  | config (backend : Backend)
  | inherited
  | undefined
  deriving DecidableEq, Repr

/-- The property names every object literal inherits. -/
def objectPrototypeKeys : List String :=
  ["constructor", "toString", "toLocaleString", "valueOf", "hasOwnProperty", "isPrototypeOf",
    "propertyIsEnumerable", "__proto__", "__defineGetter__", "__defineSetter__",
    "__lookupGetter__", "__lookupSetter__"]

/-- The lookup `PROXY_BACKENDS[backend]`. -/
def lookupBackend (backend : String) : BackendLookup :=
  if backend = "ultraviolet" then BackendLookup.config Backend.ultraviolet
  else if backend = "scramjet" then BackendLookup.config Backend.scramjet
  else if backend ∈ objectPrototypeKeys then BackendLookup.inherited
  else BackendLookup.undefined

/-- The values `url.searchParams.get` returns for `url`, `backend` and `type`;
`none` is `null`. -/
structure ProxyRequest where
  url : Option String
  backend : Option String
  type : Option String
  deriving DecidableEq, Repr

/-- How `handleProxy` ends. -/
inductive ProxyResult where
  /-- `NextResponse.json({ error }, { status })`. -/
  | json (status : Nat) (error : String)
  /-- The JSON object describing the SOCKS5 proxy configuration. -/
  | socks5Config
  /-- The request is re-issued with `fetch` to the given proxy URL. -/
  | forwarded (proxyUrl : String)
  deriving DecidableEq, Repr

/-- Semantics of `value || fallback` on a query parameter: `null` and the empty
string are falsy. -/
def orDefault (value : Option String) (fallback : String) : String :=
  match value with
  | some v => if v = "" then fallback else v
  | none => fallback

/-- The response of the `catch` of `handleProxy`. -/
def proxyFailed : ProxyResult := ProxyResult.json 500 "Proxy request failed"

/-- The body of `handleProxy`.  `hostname url` is `new URL(url).hostname` and
`encodeUrl` is the `encodeUrl` of a backend, each `none` when it throws;
`endpoint` is the configured endpoint of a backend. -/
def handleProxy (hostname : String → Option String)
    (encodeUrl : Backend → String → Option String) (endpoint : Backend → String)
    (request : ProxyRequest) : ProxyResult :=
  let backend := orDefault request.backend "ultraviolet"
  let proxyType := orDefault request.type "https"
  match request.url with
  | none => ProxyResult.json 400 "Missing target URL parameter"
  | some targetUrl =>
    if targetUrl = "" then ProxyResult.json 400 "Missing target URL parameter"
    else
      match lookupBackend backend with
      | BackendLookup.undefined => ProxyResult.json 400 ("Unsupported backend: " ++ backend)
      | proxyConfig =>
        match hostname targetUrl with
        | none => proxyFailed
        | some targetDomain =>
          if !isGeForceNow targetDomain then
            ProxyResult.json 403 "Target URL must be a GeForce Now domain"
          else if proxyType = "socks5" then ProxyResult.socks5Config
          else
            match proxyConfig with
            | BackendLookup.config b =>
              match encodeUrl b targetUrl with
              | some encodedUrl => ProxyResult.forwarded (endpoint b ++ encodedUrl)
              | none => proxyFailed
            | _ => proxyFailed

/-- The host of a URL written `scheme://host`, optionally followed by a port, a
path, a query or a fragment; `new URL(url).hostname` agrees with it when the
host is a lowercase ASCII domain name. -/
def simpleHostname (url : String) : Option String :=
  match url.data.dropWhile (fun c => c ≠ ':') with
  | ':' :: '/' :: '/' :: rest =>
    some (String.mk (rest.takeWhile (fun c => c ≠ '/' && c ≠ ':' && c ≠ '?' && c ≠ '#')))
  | _ => none

end ProxyApi

namespace Socks5

/-! ## Library facts -/

theorem digitChar_eq_lowerHexDigit : ∀ d < 16, Nat.digitChar d = lowerHexDigit d := by
  decide

theorem toDigitsCore_succ (f n : Nat) (ds : List Char) :
    Nat.toDigitsCore 16 (f + 1) n ds =
      if n / 16 = 0 then Nat.digitChar (n % 16) :: ds
      else Nat.toDigitsCore 16 f (n / 16) (Nat.digitChar (n % 16) :: ds) := by
  simp [Nat.toDigitsCore]

theorem toString16_eq_hexGroup (v : Nat) (hv : v < 65536) : toString16 v = hexGroup v := by
  have d0 := digitChar_eq_lowerHexDigit (v % 16) (Nat.mod_lt _ (by decide))
  have d1 := digitChar_eq_lowerHexDigit (v / 16 % 16) (Nat.mod_lt _ (by decide))
  have d2 := digitChar_eq_lowerHexDigit (v / 256 % 16) (Nat.mod_lt _ (by decide))
  have d3 := digitChar_eq_lowerHexDigit (v / 4096 % 16) (Nat.mod_lt _ (by decide))
  unfold toString16 hexGroup Nat.toDigits
  congr 1
  by_cases h1 : v < 16
  · have a1 : v / 16 = 0 := by omega
    have a2 : v / 256 = 0 := by omega
    have a3 : v / 4096 = 0 := by omega
    rw [toDigitsCore_succ]
    simp [a1, a2, a3, d0]
  · by_cases h2 : v < 256
    · obtain ⟨k, rfl⟩ : ∃ k, v = k + 1 := ⟨v - 1, by omega⟩
      have a1 : (k + 1) / 16 ≠ 0 := by omega
      have a1' : (k + 1) / 16 % 16 ≠ 0 := by omega
      have a2 : (k + 1) / 16 / 16 = 0 := by omega
      have a2' : (k + 1) / 256 = 0 := by omega
      have a3 : (k + 1) / 4096 = 0 := by omega
      rw [toDigitsCore_succ, if_neg a1, toDigitsCore_succ, if_pos a2]
      simp [a1', a2', a3, d0, d1]
    · by_cases h3 : v < 4096
      · obtain ⟨k, rfl⟩ : ∃ k, v = k + 2 := ⟨v - 2, by omega⟩
        have a1 : (k + 2) / 16 ≠ 0 := by omega
        have a2 : (k + 2) / 16 / 16 ≠ 0 := by omega
        have a2' : (k + 2) / 256 % 16 ≠ 0 := by omega
        have a3 : (k + 2) / 16 / 16 / 16 = 0 := by omega
        have a3' : (k + 2) / 4096 = 0 := by omega
        have e2 : (k + 2) / 16 / 16 = (k + 2) / 256 := by omega
        rw [toDigitsCore_succ, if_neg a1, toDigitsCore_succ, if_neg a2, toDigitsCore_succ,
          if_pos a3]
        simp [a2', a3', d0, d1, d2, e2]
      · obtain ⟨k, rfl⟩ : ∃ k, v = k + 3 := ⟨v - 3, by omega⟩
        have a1 : (k + 3) / 16 ≠ 0 := by omega
        have a2 : (k + 3) / 16 / 16 ≠ 0 := by omega
        have a3 : (k + 3) / 16 / 16 / 16 ≠ 0 := by omega
        have a3' : (k + 3) / 4096 % 16 ≠ 0 := by omega
        have a4 : (k + 3) / 16 / 16 / 16 / 16 = 0 := by omega
        have e2 : (k + 3) / 16 / 16 = (k + 3) / 256 := by omega
        have e3 : (k + 3) / 16 / 16 / 16 = (k + 3) / 4096 := by omega
        have e3' : (k + 3) / 256 / 16 = (k + 3) / 4096 := by omega
        rw [toDigitsCore_succ, if_neg a1, toDigitsCore_succ, if_neg a2, toDigitsCore_succ,
          if_neg a3, toDigitsCore_succ, if_pos a4]
        simp [a3', d0, d1, d2, d3, e2, e3, e3']

theorem readUInt16BE_of_le (data : Buffer) (offset : Nat) (h : offset + 2 ≤ data.length) :
    readUInt16BE data offset = some (256 * data.getD offset 0 + data.getD (offset + 1) 0) := by
  obtain ⟨a, ha⟩ : ∃ v, data[offset]? = some v :=
    ⟨_, List.getElem?_eq_getElem (by omega)⟩
  obtain ⟨b, hb⟩ : ∃ v, data[offset + 1]? = some v :=
    ⟨_, List.getElem?_eq_getElem (by omega)⟩
  simp [readUInt16BE, ha, hb, Nat.mul_comm]

theorem renderElem_of_lt (data : Buffer) (i : Nat) (h : i < data.length) :
    renderElem data[i]? = toString (data.getD i 0) := by
  obtain ⟨a, ha⟩ : ∃ v, data[i]? = some v := ⟨_, List.getElem?_eq_getElem h⟩
  simp [renderElem, ha]

theorem ipv6Parts_of_le (data : Buffer) (h : 20 ≤ data.length) :
    ipv6Parts data = some ((List.range 8).map
      (fun i => toString16 (256 * data.getD (4 + 2 * i) 0 + data.getD (5 + 2 * i) 0))) := by
  have hr : List.range 8 = [0, 1, 2, 3, 4, 5, 6, 7] := by decide
  simp only [ipv6Parts, hr, List.mapM_cons, List.mapM_nil, List.map,
    readUInt16BE_of_le data _ (show 4 + 0 * 2 + 2 ≤ data.length by omega),
    readUInt16BE_of_le data _ (show 4 + 1 * 2 + 2 ≤ data.length by omega),
    readUInt16BE_of_le data _ (show 4 + 2 * 2 + 2 ≤ data.length by omega),
    readUInt16BE_of_le data _ (show 4 + 3 * 2 + 2 ≤ data.length by omega),
    readUInt16BE_of_le data _ (show 4 + 4 * 2 + 2 ≤ data.length by omega),
    readUInt16BE_of_le data _ (show 4 + 5 * 2 + 2 ≤ data.length by omega),
    readUInt16BE_of_le data _ (show 4 + 6 * 2 + 2 ≤ data.length by omega),
    readUInt16BE_of_le data _ (show 4 + 7 * 2 + 2 ≤ data.length by omega)]
  rfl

theorem getD_lt_of_isBytes (data : Buffer) (h : data.isBytes) (i : Nat) : data.getD i 0 < 256 := by
  by_cases hi : i < data.length
  · rw [List.getD_eq_getElem _ _ hi]
    exact h _ (List.getElem_mem hi)
  · rw [List.getD_eq_default _ _ (by omega)]
    decide

/-- The check at the head of the `data` handler passes on a CONNECT request of
at least 7 bytes. -/
theorem header_ok (data : Buffer) (hlen : 7 ≤ data.length) (hver : data[0]? = some 0x05)
    (hcmd : data[1]? = some 0x01) :
    ¬ (data.length < 7 ∨ data[0]? ≠ some SOCKS_VERSION ∨ data[1]? ≠ some SOCKS_CMD_CONNECT) := by
  simp [hver, hcmd, SOCKS_VERSION, SOCKS_CMD_CONNECT]
  omega


theorem splitDot_length (l : List Char) : (splitDot l).length = l.count '.' + 1 := by
  induction l with
  | nil => simp [splitDot]
  | cons c cs ih =>
    by_cases hc : c = '.'
    · subst hc
      simp [splitDot, ih]
    · have hc' : ¬ ('.' = c) := fun h => hc h.symm
      cases hsp : splitDot cs with
      | nil => simp [hsp] at ih
      | cons p ps =>
        simp [splitDot, hc, hsp, List.count_cons, hc'] at ih ⊢
        omega

theorem splitDot_of_not_mem (p : List Char) (hp : '.' ∉ p) : splitDot p = [p] := by
  induction p with
  | nil => simp [splitDot]
  | cons c cs ih =>
    simp only [List.mem_cons, not_or] at hp
    have hc : ¬ (c = '.') := fun h => hp.1 h.symm
    simp [splitDot, hc, ih hp.2]

theorem splitDot_append (p rest : List Char) (hp : '.' ∉ p) :
    splitDot (p ++ '.' :: rest) = p :: splitDot rest := by
  induction p with
  | nil => simp [splitDot]
  | cons c cs ih =>
    simp only [List.mem_cons, not_or] at hp
    have hc : ¬ (c = '.') := fun h => hp.1 h.symm
    simp [splitDot, hc, ih hp.2]

set_option maxRecDepth 100000 in
theorem octet_text : ∀ a < 256,
    '.' ∉ (toString a).data ∧ storeByte (parseInt (toString a).data) = a := by
  decide

theorem storeByte_lt (v : Option Int) : storeByte v < 256 := by
  cases v with
  | none => simp [storeByte]
  | some v =>
    simp only [storeByte]
    have h1 : v % 256 < 256 := Int.emod_lt_of_pos v (by decide)
    have h2 : 0 ≤ v % 256 := Int.emod_nonneg v (by decide)
    omega

/-- The shape of every buffer `sendConnectionResponse` writes. -/
theorem sendConnectionResponse_shape (status : Nat) (address : Option String)
    (port : Option Nat) (reply : Buffer)
    (h : sendConnectionResponse status address port = some reply) :
    reply.length = 10 ∧ reply[1]? = some (status % 256) := by
  unfold sendConnectionResponse at h
  simp only [writeUInt16BE] at h
  split at h
  · rename_i pb hpb
    split at hpb
    · cases hpb
      cases h
      split <;> simp
    · cases hpb
  · cases h

/-! ## Facts about sessions -/

theorem replies_append (xs ys : List Effect) : replies (xs ++ ys) = replies xs ++ replies ys := by
  induction xs with
  | nil => rfl
  | cons x xs ih =>
    cases x <;> simp [replies, ih]
    split <;> simp

theorem pipedAfterSuccess_of_not_mem (effects : List Effect) (h : Effect.pipe ∉ effects) :
    PipedAfterSuccess effects := by
  intro before after heq
  exact absurd (by simp [heq]) h

theorem pipedAfterSuccess_append (effects extra : List Effect) (h : PipedAfterSuccess effects)
    (hextra : Effect.pipe ∉ extra) : PipedAfterSuccess (effects ++ extra) := by
  intro before after heq
  rcases List.append_eq_append_iff.mp heq with ⟨a, rfl, ha⟩ | ⟨c, hc, hc2⟩
  · exact absurd (by simp [ha]) hextra
  · cases c with
    | nil =>
      simp at hc2
      exact absurd (by simp [← hc2]) hextra
    | cons x c =>
      simp at hc2
      obtain ⟨rfl, _⟩ := hc2
      exact h before c hc

theorem pipedAfterSuccess_of_success (pre extra : List Effect) (bytes : Buffer)
    (hpre : Effect.pipe ∉ pre) (hmem : Effect.write bytes ∈ pre) (hok : isSuccessReply bytes) :
    PipedAfterSuccess (pre ++ extra) := by
  intro before after heq
  rcases List.append_eq_append_iff.mp heq with ⟨a, rfl, _⟩ | ⟨c, hc, hc2⟩
  · exact ⟨bytes, by simp [hmem], hok⟩
  · cases c with
    | nil =>
      simp at hc
      subst hc
      exact ⟨bytes, hmem, hok⟩
    | cons x c =>
      simp at hc2
      obtain ⟨rfl, _⟩ := hc2
      exact absurd (by simp [hc]) hpre

theorem refuse_07 : refuse 0x07 = RequestOutcome.refused [0x05, 0x07, 0x00, 0x01, 0, 0, 0, 0, 0, 0] := by
  decide

theorem refuse_08 : refuse 0x08 = RequestOutcome.refused [0x05, 0x08, 0x00, 0x01, 0, 0, 0, 0, 0, 0] := by
  decide

theorem failure_reply :
    sendConnectionResponse 0x01 none none = some [0x05, 0x01, 0x00, 0x01, 0, 0, 0, 0, 0, 0] := by
  decide

theorem establishCatch_eq (s : Session) :
    establishCatch s =
      s.emit [Effect.write [0x05, 0x01, 0x00, 0x01, 0, 0, 0, 0, 0, 0], Effect.endClient]
        Phase.closed := by
  simp [establishCatch, failure_reply]

theorem authenticateUser_length (bufToString : Buffer → String) (cfg : Config) (data : Buffer) :
    (authenticateUser bufToString cfg data).1.length = 2 := by
  unfold authenticateUser
  split <;> simp

/-- A closed session stays closed, and only `destroy()` calls on the target
socket are added to what it did. -/
theorem step_closed (bufToString : Buffer → String) (cfg : Config) (s : Session) (e : Event)
    (h : s.phase = Phase.closed) :
    (step bufToString cfg s e).phase = Phase.closed ∧
      visible (step bufToString cfg s e).effects = visible s.effects := by
  cases e with
  | data chunk => simp [step, onData, h]
  | dialSucceeded a p => simp [step, h]
  | dialFailed => simp [step, h]
  | timerFired t =>
    cases t <;> simp only [step, onTimer, h] <;> split_ifs <;> simp [h, visible]

theorem run_closed (bufToString : Buffer → String) (cfg : Config) (events : List Event) :
    ∀ s : Session, s.phase = Phase.closed →
      (run bufToString cfg s events).phase = Phase.closed ∧
        visible (run bufToString cfg s events).effects = visible s.effects := by
  induction events with
  | nil => intro s h; exact ⟨h, rfl⟩
  | cons e es ih =>
    intro s h
    obtain ⟨h1, h2⟩ := step_closed bufToString cfg s e h
    obtain ⟨h3, h4⟩ := ih (step bufToString cfg s e) h1
    exact ⟨h3, h4.trans h2⟩

theorem safe_of_clean (effects : List Effect) (h1 : (replies effects).length ≤ 1)
    (h2 : Effect.pipe ∉ effects) : Safe effects :=
  ⟨h1, pipedAfterSuccess_of_not_mem effects h2⟩

theorem safe_append_destroyTarget (effects : List Effect) (h : Safe effects) :
    Safe (effects ++ [Effect.destroyTarget]) := by
  refine ⟨?_, pipedAfterSuccess_append _ _ h.2 (by simp)⟩
  rw [replies_append]
  simpa [replies] using h.1

theorem safe_started (w reply : Buffer) (host : String) (port : Nat) (extra : List Effect)
    (hw : w.length = 2) (hok : isSuccessReply reply)
    (hextra : ∀ e ∈ extra, e = Effect.destroyClient ∨ e = Effect.destroyTarget) :
    Safe ([Effect.write w, Effect.connect host port, Effect.write reply, Effect.pipe] ++ extra) := by
  have hrep : replies extra = [] := by
    induction extra with
    | nil => rfl
    | cons x xs ih =>
      have hx := hextra x (by simp)
      have hxs := ih (fun e he => hextra e (by simp [he]))
      rcases hx with rfl | rfl <;> simpa [replies] using hxs
  constructor
  · rw [replies_append, hrep]
    simp [replies, hw, hok.1]
  · have := pipedAfterSuccess_of_success
      [Effect.write w, Effect.connect host port, Effect.write reply] (Effect.pipe :: extra) reply
      (by simp) (by simp) hok
    simpa using this

theorem inv_init : Inv Session.init := by
  simp [Inv, Session.init]

theorem step_inv_negotiating (bufToString : Buffer → String) (cfg : Config) (s : Session)
    (e : Event) (hp : s.phase = Phase.negotiating) (h : Inv s) :
    Inv (step bufToString cfg s e) := by
  obtain ⟨phase, effects, nt, rt, dt⟩ := s
  simp only at hp
  subst hp
  simp only [Inv] at h
  obtain ⟨hdt, heff⟩ := h
  subst hdt heff
  cases e with
  | data chunk =>
    simp only [step, onData]
    cases negotiateAuth chunk with
    | none =>
      simp only [handleClientCatch, Session.emit, Inv]
      apply safe_of_clean <;> simp [replies]
    | some methods =>
      simp only [afterNegotiation]
      split_ifs
      · simp [Inv]
      · simp [Inv, startRequest, Session.emit]
      · simp only [Session.emit, Inv]
        apply safe_of_clean <;> simp [replies]
  | dialSucceeded a p => simp [step, Inv]
  | dialFailed => simp [step, Inv]
  | timerFired t =>
    cases t <;> simp only [step, onTimer] <;> split_ifs <;>
      simp [Inv, handleClientCatch, Session.emit] <;>
      apply safe_of_clean <;> simp [replies]

theorem step_inv_authenticating (bufToString : Buffer → String) (cfg : Config) (s : Session)
    (e : Event) (hp : s.phase = Phase.authenticating) (h : Inv s) :
    Inv (step bufToString cfg s e) := by
  obtain ⟨phase, effects, nt, rt, dt⟩ := s
  simp only at hp
  subst hp
  simp only [Inv] at h
  obtain ⟨hdt, heff⟩ := h
  subst hdt heff
  cases e with
  | data chunk =>
    simp only [step, onData]
    have hlen := authenticateUser_length bufToString cfg chunk
    rcases hau : authenticateUser bufToString cfg chunk with ⟨written, ok⟩
    rw [hau] at hlen
    cases ok
    · simp only [Session.emit, Inv]
      apply safe_of_clean <;> simp_all [replies]
    · simp_all [Inv, startRequest, Session.emit]
  | dialSucceeded a p => simp [step, Inv]
  | dialFailed => simp [step, Inv]
  | timerFired t =>
    cases t <;> simp only [step, onTimer] <;> split_ifs <;>
      simp [Inv, handleClientCatch, Session.emit]

theorem receiveConnectRequest_refused (bufToString : Buffer → String) (data reply : Buffer)
    (h : receiveConnectRequest bufToString data = RequestOutcome.refused reply) :
    reply = [0x05, 0x07, 0x00, 0x01, 0, 0, 0, 0, 0, 0] ∨
      reply = [0x05, 0x08, 0x00, 0x01, 0, 0, 0, 0, 0, 0] := by
  unfold receiveConnectRequest at h
  simp only [refuse_07, refuse_08, finishRequest] at h
  split_ifs at h
  · left; cases h; rfl
  · split at h <;> cases h
  · split at h <;> cases h
  · split at h
    · cases h
    · split at h <;> cases h
  · right; cases h; rfl

theorem step_inv_awaitingRequest (bufToString : Buffer → String) (cfg : Config) (s : Session)
    (e : Event) (hp : s.phase = Phase.awaitingRequest) (h : Inv s) :
    Inv (step bufToString cfg s e) := by
  obtain ⟨phase, effects, nt, rt, dt⟩ := s
  simp only at hp
  subst hp
  simp only [Inv] at h
  obtain ⟨hdt, w, heff, hw⟩ := h
  subst hdt heff
  cases e with
  | data chunk =>
    simp only [step, onData]
    cases hreq : receiveConnectRequest bufToString chunk with
    | resolved request warned => simp [Inv, connectToTarget, hw]
    | refused reply =>
      simp only [Session.emit, Inv]
      apply safe_of_clean
      · rcases receiveConnectRequest_refused bufToString chunk reply hreq with rfl | rfl <;>
          simp [replies, hw]
      · simp
    | thrown => simp [Inv, Session.emit, hw]
  | dialSucceeded a p => simp [step, Inv, hw]
  | dialFailed => simp [step, Inv, hw]
  | timerFired t =>
    cases t <;> simp only [step, onTimer] <;> split_ifs <;>
      simp [Inv, handleClientCatch, Session.emit, hw] <;>
      apply safe_of_clean <;> simp [replies, hw]

theorem replies_failure (w : Buffer) (host : String) (port : Nat) (mid : List Effect)
    (hw : w.length = 2) (hmid : mid = [] ∨ mid = [Effect.destroyTarget]) :
    replies ([Effect.write w, Effect.connect host port] ++ mid ++
        [Effect.write [0x05, 0x01, 0x00, 0x01, 0, 0, 0, 0, 0, 0], Effect.endClient]) =
      [[0x05, 0x01, 0x00, 0x01, 0, 0, 0, 0, 0, 0]] := by
  rcases hmid with rfl | rfl <;> simp [replies, hw]

theorem step_inv_connecting (bufToString : Buffer → String) (cfg : Config) (s : Session)
    (e : Event) (hp : s.phase = Phase.connecting) (h : Inv s) :
    Inv (step bufToString cfg s e) := by
  obtain ⟨phase, effects, nt, rt, dt⟩ := s
  simp only at hp
  subst hp
  simp only [Inv] at h
  obtain ⟨hdt, w, host, port, heff, hw⟩ := h
  subst hdt heff
  cases e with
  | data chunk => simp [step, onData, Inv, hw]
  | dialSucceeded a p =>
    simp only [step, if_true, establishSuccess]
    cases hresp : sendConnectionResponse 0x00 a p with
    | none =>
      simp only [establishCatch_eq, Session.emit, Inv]
      apply safe_of_clean <;> simp [replies, hw]
    | some reply =>
      have hshape := sendConnectionResponse_shape 0x00 a p reply hresp
      simp only [Session.emit, Inv]
      exact ⟨w, host, port, reply, by simp, hw, hshape.1, by simpa using hshape.2⟩
  | dialFailed =>
    simp only [step, if_true, establishCatch_eq, Session.emit, Inv]
    apply safe_of_clean <;> simp [replies, hw]
  | timerFired t =>
    cases t <;> simp only [step, onTimer] <;> split_ifs <;>
      simp [Inv, establishCatch_eq, Session.emit, hw] <;>
      apply safe_of_clean <;> simp [replies, hw]

theorem step_inv_relaying (bufToString : Buffer → String) (cfg : Config) (s : Session)
    (e : Event) (hp : s.phase = Phase.relaying) (h : Inv s) :
    Inv (step bufToString cfg s e) := by
  obtain ⟨phase, effects, nt, rt, dt⟩ := s
  simp only at hp
  subst hp
  simp only [Inv] at h
  obtain ⟨w, host, port, reply, heff, hw, hok⟩ := h
  subst heff
  have hinv : ∀ nt rt dt, Inv
      { phase := Phase.relaying,
        effects := [Effect.write w, Effect.connect host port, Effect.write reply, Effect.pipe],
        negotiationTimer := nt, requestTimer := rt, dialTimer := dt } :=
    fun _ _ _ => ⟨w, host, port, reply, rfl, hw, hok⟩
  cases e with
  | data chunk => simpa [step, onData] using hinv nt rt dt
  | dialSucceeded a p => simpa [step] using hinv nt rt dt
  | dialFailed =>
    simp only [step, Session.emit, Inv]
    exact safe_started w reply host port [Effect.destroyClient] hw hok (by simp)
  | timerFired t =>
    have hdial := safe_started w reply host port [Effect.destroyTarget, Effect.destroyClient]
      hw hok (by simp)
    cases t <;> simp only [step, onTimer] <;> split_ifs <;>
      first
        | contradiction
        | exact hinv _ _ _
        | (simp only [Session.emit, Inv]; simpa using hdial)

theorem step_inv_closed (bufToString : Buffer → String) (cfg : Config) (s : Session)
    (e : Event) (hp : s.phase = Phase.closed) (h : Inv s) :
    Inv (step bufToString cfg s e) := by
  obtain ⟨phase, effects, nt, rt, dt⟩ := s
  simp only at hp
  subst hp
  simp only [Inv] at h
  cases e with
  | data chunk => simpa [step, onData, Inv] using h
  | dialSucceeded a p => simpa [step, Inv] using h
  | dialFailed => simpa [step, Inv] using h
  | timerFired t =>
    cases t <;> simp only [step, onTimer] <;> split_ifs <;>
      simp [Inv, h, safe_append_destroyTarget]

theorem step_crashed (bufToString : Buffer → String) (cfg : Config) (s : Session)
    (e : Event) (hp : s.phase = Phase.crashed) : step bufToString cfg s e = s := by
  cases e <;> simp [step, onData, hp]

/-- The invariant holds along every transition. -/
theorem step_inv (bufToString : Buffer → String) (cfg : Config) (s : Session) (e : Event)
    (h : Inv s) : Inv (step bufToString cfg s e) := by
  cases hp : s.phase with
  | negotiating => exact step_inv_negotiating bufToString cfg s e hp h
  | authenticating => exact step_inv_authenticating bufToString cfg s e hp h
  | awaitingRequest => exact step_inv_awaitingRequest bufToString cfg s e hp h
  | connecting => exact step_inv_connecting bufToString cfg s e hp h
  | relaying => exact step_inv_relaying bufToString cfg s e hp h
  | closed => exact step_inv_closed bufToString cfg s e hp h
  | crashed => rw [step_crashed bufToString cfg s e hp]; exact h

theorem run_inv (bufToString : Buffer → String) (cfg : Config) (events : List Event) :
    ∀ s : Session, Inv s → Inv (run bufToString cfg s events) := by
  induction events with
  | nil => intro s h; exact h
  | cons e es ih => intro s h; exact ih _ (step_inv bufToString cfg s e h)

/-- The invariant holds of every session `handleClient` reaches. -/
theorem handleClient_inv (bufToString : Buffer → String) (cfg : Config) (events : List Event) :
    Inv (handleClient bufToString cfg events) :=
  run_inv bufToString cfg events Session.init inv_init

theorem safe_of_inv (s : Session) (h : Inv s) : Safe s.effects := by
  obtain ⟨phase, effects, nt, rt, dt⟩ := s
  cases phase <;> simp only [Inv] at h
  · obtain ⟨_, rfl⟩ := h
    apply safe_of_clean <;> simp [replies]
  · obtain ⟨_, rfl⟩ := h
    apply safe_of_clean <;> simp [replies]
  · obtain ⟨_, w, rfl, hw⟩ := h
    apply safe_of_clean <;> simp [replies, hw]
  · obtain ⟨_, w, host, port, rfl, hw⟩ := h
    apply safe_of_clean <;> simp [replies, hw]
  · obtain ⟨w, host, port, reply, rfl, hw, hok⟩ := h
    simpa using safe_started w reply host port [] hw hok (by simp)
  · exact h
  · obtain ⟨w, rfl, hw⟩ := h
    apply safe_of_clean <;> simp [replies, hw]

theorem replies_visible (effects : List Effect) : replies (visible effects) = replies effects := by
  induction effects with
  | nil => rfl
  | cons x xs ih =>
    cases x <;> simp_all [visible, replies]

theorem mem_visible (e : Effect) (effects : List Effect) (he : e ≠ Effect.destroyTarget) :
    e ∈ visible effects ↔ e ∈ effects := by
  simp [visible, he]

/-- After `handleClient` has returned, no later event makes the session write,
connect or pipe. -/
theorem after_closed (bufToString : Buffer → String) (cfg : Config) (s : Session)
    (later : List Event) (h : s.phase = Phase.closed) :
    (run bufToString cfg s later).phase = Phase.closed ∧
      replies (run bufToString cfg s later).effects = replies s.effects ∧
      ∀ e, e ≠ Effect.destroyTarget →
        (e ∈ (run bufToString cfg s later).effects ↔ e ∈ s.effects) := by
  obtain ⟨h1, h2⟩ := run_closed bufToString cfg later s h
  refine ⟨h1, ?_, ?_⟩
  · rw [← replies_visible, h2, replies_visible]
  · intro e he
    rw [← mem_visible e _ he, h2, mem_visible e _ he]

theorem handleClient_append (bufToString : Buffer → String) (cfg : Config)
    (events : List Event) (e : Event) (later : List Event) :
    handleClient bufToString cfg (events ++ e :: later) =
      run bufToString cfg (step bufToString cfg (handleClient bufToString cfg events) e) later := by
  simp [handleClient, run, List.foldl_append]

theorem slice_eq_mid (data pre mid post : Buffer) (start stop : Nat)
    (hdata : data = pre ++ mid ++ post) (hstart : start = pre.length)
    (hstop : stop = start + mid.length) : data.slice start stop = mid := by
  subst hdata hstart hstop
  have h : List.take (pre.length + mid.length) (pre ++ mid ++ post) = pre ++ mid :=
    List.take_left' (by simp)
  rw [Buffer.slice, h]
  exact List.drop_left' rfl

theorem getElem?_eq_mid (data pre post : Buffer) (x i : Nat)
    (hdata : data = pre ++ x :: post) (hi : i = pre.length) : data[i]? = some x := by
  subst hdata hi
  rw [List.getElem?_append_right (Nat.le_refl _)]
  simp

theorem authenticateUser_wellFormed (bufToString : Buffer → String) (cfg : Config)
    (user pass : Buffer) :
    authenticateUser bufToString cfg ([0x01, user.length] ++ user ++ [pass.length] ++ pass) =
      if some (bufToString user) = cfg.username ∧ some (bufToString pass) = cfg.password then
        ([0x01, 0x00], true)
      else ([0x01, 0xFF], false) := by
  have hlen : ¬ (([0x01, user.length] ++ user ++ [pass.length] ++ pass).length < 3 ∨
      ([0x01, user.length] ++ user ++ [pass.length] ++ pass)[0]? ≠ some 0x01) := by
    simp
    omega
  have h1 : ([0x01, user.length] ++ user ++ [pass.length] ++ pass)[1]? = some user.length := by
    simp
  have hu : Buffer.slice ([0x01, user.length] ++ user ++ [pass.length] ++ pass) 2
      (2 + user.length) = user := by
    exact slice_eq_mid _ [0x01, user.length] user ([pass.length] ++ pass) _ _ (by simp)
      (by simp) (by simp)
  have h2 : ([0x01, user.length] ++ user ++ [pass.length] ++ pass)[2 + user.length]? =
      some pass.length :=
    getElem?_eq_mid _ ([0x01, user.length] ++ user) pass _ _ (by simp) (by simp; omega)
  have hp : Buffer.slice ([0x01, user.length] ++ user ++ [pass.length] ++ pass)
      (3 + user.length) (3 + user.length + pass.length) = pass :=
    slice_eq_mid _ ([0x01, user.length] ++ user ++ [pass.length]) pass [] _ _ (by simp)
      (by simp; omega) (by simp)
  simp only [authenticateUser, if_neg hlen, h1, Option.getD_some, hu, h2, hp]
  by_cases hc : some (bufToString user) = cfg.username ∧ some (bufToString pass) = cfg.password
  · simp [hc]
  · rw [if_neg hc]
    simp only [not_and_or] at hc
    rcases hc with hc | hc <;> simp [hc]

/-! ## Method negotiation and authentication -/

/-- C1: once the session awaits the username/password message (which an
offer of method 0x02 to a server with `auth` set leads to), a well-formed
message makes `authenticateUser` write `[0x01, 0x00]` and `handleClient` go on
to await the connect request exactly when both decoded credentials equal the
configured ones; otherwise `[0x01, 0xFF]` is written, the client connection is
ended and no connect reply is ever written. -/
theorem credentials_decide_progress (bufToString : Buffer → String) (cfg : Config)
    (events : List Event) (user pass : Buffer)
    (hphase : (handleClient bufToString cfg events).phase = Phase.authenticating) :
    (∀ neg methods, cfg.auth = true → negotiateAuth neg = some methods →
      0x02 ∈ methods →
      (handleClient bufToString cfg [Event.data neg]).phase = Phase.authenticating) ∧
    (some (bufToString user) = cfg.username ∧ some (bufToString pass) = cfg.password →
      authenticateUser bufToString cfg ([0x01, user.length] ++ user ++ [pass.length] ++ pass) =
        ([0x01, 0x00], true) ∧
      (handleClient bufToString cfg
        (events ++ [Event.data ([0x01, user.length] ++ user ++ [pass.length] ++ pass)])).phase =
        Phase.awaitingRequest ∧
      (handleClient bufToString cfg
        (events ++ [Event.data ([0x01, user.length] ++ user ++ [pass.length] ++ pass)])).requestTimer =
        true ∧
      (handleClient bufToString cfg
        (events ++ [Event.data ([0x01, user.length] ++ user ++ [pass.length] ++ pass)])).effects =
        [Effect.write [0x01, 0x00]]) ∧
    (¬ (some (bufToString user) = cfg.username ∧ some (bufToString pass) = cfg.password) →
      authenticateUser bufToString cfg ([0x01, user.length] ++ user ++ [pass.length] ++ pass) =
        ([0x01, 0xFF], false) ∧
      ∀ later,
        (handleClient bufToString cfg
          (events ++ Event.data ([0x01, user.length] ++ user ++ [pass.length] ++ pass) ::
            later)).phase = Phase.closed ∧
        visible (handleClient bufToString cfg
          (events ++ Event.data ([0x01, user.length] ++ user ++ [pass.length] ++ pass) ::
            later)).effects = [Effect.write [0x01, 0xFF], Effect.endClient] ∧
        replies (handleClient bufToString cfg
          (events ++ Event.data ([0x01, user.length] ++ user ++ [pass.length] ++ pass) ::
            later)).effects = []) := by
  have hinv := handleClient_inv bufToString cfg events
  have hau := authenticateUser_wellFormed bufToString cfg user pass
  generalize hs : handleClient bufToString cfg events = s at hinv hphase
  obtain ⟨phase, effects, nt, rt, dt⟩ := s
  simp only at hphase
  subst hphase
  simp only [Inv] at hinv
  obtain ⟨hdt, heff⟩ := hinv
  subst hdt heff
  refine ⟨?_, ?_, ?_⟩
  · intro neg methods hauth hneg h2
    simp [handleClient, run, step, onData, Session.init, hneg, afterNegotiation, hauth,
      SOCKS_AUTH_USER_PASS, h2]
  · intro hc
    rw [if_pos hc] at hau
    have hstep : handleClient bufToString cfg
        (events ++ [Event.data ([0x01, user.length] ++ user ++ [pass.length] ++ pass)]) =
        startRequest (Session.emit ⟨Phase.authenticating, [], nt, rt, false⟩
          [Effect.write [0x01, 0x00]] Phase.authenticating) := by
      rw [handleClient_append, hs]
      simp only [run, List.foldl, step, onData, hau]
    rw [hstep]
    exact ⟨hau, rfl, rfl, rfl⟩
  · intro hc
    rw [if_neg hc] at hau
    refine ⟨hau, ?_⟩
    intro later
    have hstep : step bufToString cfg ⟨Phase.authenticating, [], nt, rt, false⟩
        (Event.data ([0x01, user.length] ++ user ++ [pass.length] ++ pass)) =
        Session.emit ⟨Phase.authenticating, [], nt, rt, false⟩
          [Effect.write [0x01, 0xFF], Effect.endClient] Phase.closed := by
      simp only [step, onData, hau]
    rw [handleClient_append, hs, hstep]
    obtain ⟨h1, h2⟩ := run_closed bufToString cfg later _ (rfl : (Session.emit
      ⟨Phase.authenticating, [], nt, rt, false⟩ [Effect.write [0x01, 0xFF], Effect.endClient]
      Phase.closed).phase = Phase.closed)
    refine ⟨h1, ?_, ?_⟩
    · rw [h2]
      simp [Session.emit, visible]
    · rw [← replies_visible, h2]
      simp [Session.emit, visible, replies]

/-- C1, on the configured pair `user` / `pass` sent after the offer `[5, 1, 2]`:
the session writes `[0x01, 0x00]` and nothing else. -/
theorem credentials_decide_progress_witness :
    (handleClient asciiToString ⟨true, some "user", some "pass"⟩
      [Event.data [5, 1, 2],
        Event.data [0x01, 4, 117, 115, 101, 114, 4, 112, 97, 115, 115]]).effects =
      [Effect.write [0x01, 0x00]] :=
  ((credentials_decide_progress asciiToString ⟨true, some "user", some "pass"⟩
    [Event.data [5, 1, 2]] [117, 115, 101, 114] [112, 97, 115, 115] (by decide)).2.1
      (by decide)).2.2.2

/-- C2: with `auth` set and the offer `[5, 1, 2]`, `handleClient` awaits the
username/password message having written nothing: no `[0x05, 0x02]` precedes
the sub-negotiation, and the first bytes the client ever receives are the
authentication result. -/
theorem method_selection_missing_before_auth :
    (handleClient asciiToString ⟨true, some "user", some "pass"⟩
      [Event.data [5, 1, 2]]).phase = Phase.authenticating ∧
    (handleClient asciiToString ⟨true, some "user", some "pass"⟩
      [Event.data [5, 1, 2]]).effects = [] ∧
    (handleClient asciiToString ⟨true, some "user", some "pass"⟩
      [Event.data [5, 1, 2],
        Event.data [0x01, 4, 117, 115, 101, 114, 4, 112, 97, 115, 115]]).effects =
      [Effect.write [0x01, 0x00]] := by
  decide

/-- C3: on a valid method-negotiation message, whose declared methods are the
first `nmethods` bytes after the count byte, a session with 0x00 declared and
either `auth` unset or 0x02 not declared writes exactly `[0x05, 0x00]` and
awaits the connect request directly; with neither 0x00 nor an accepted 0x02
declared it writes exactly `[0x05, 0xFF]`, ends the connection and stays
closed, so no connect request is ever read. -/
theorem method_selection_without_auth (bufToString : Buffer → String) (cfg : Config)
    (events : List Event) (neg : Buffer)
    (hphase : (handleClient bufToString cfg events).phase = Phase.negotiating)
    (hlen : 3 ≤ neg.length) (hver : neg[0]? = some 0x05) :
    negotiateAuth neg = some ((neg.drop 2).take (neg.getD 1 0)) ∧
    (0x00 ∈ (neg.drop 2).take (neg.getD 1 0) ∧
        (cfg.auth = false ∨ 0x02 ∉ (neg.drop 2).take (neg.getD 1 0)) →
      (handleClient bufToString cfg (events ++ [Event.data neg])).effects =
        [Effect.write [0x05, 0x00]] ∧
      (handleClient bufToString cfg (events ++ [Event.data neg])).phase =
        Phase.awaitingRequest ∧
      (handleClient bufToString cfg (events ++ [Event.data neg])).requestTimer = true) ∧
    (0x00 ∉ (neg.drop 2).take (neg.getD 1 0) ∧
        ¬ (cfg.auth = true ∧ 0x02 ∈ (neg.drop 2).take (neg.getD 1 0)) →
      ∀ later,
        (handleClient bufToString cfg (events ++ Event.data neg :: later)).phase =
          Phase.closed ∧
        visible (handleClient bufToString cfg (events ++ Event.data neg :: later)).effects =
          [Effect.write [0x05, 0xFF], Effect.endClient]) := by
  have hinv := handleClient_inv bufToString cfg events
  generalize hs : handleClient bufToString cfg events = s at hinv hphase
  obtain ⟨phase, effects, nt, rt, dt⟩ := s
  simp only at hphase
  subst hphase
  simp only [Inv] at hinv
  obtain ⟨hdt, heff⟩ := hinv
  subst hdt heff
  have hneg : negotiateAuth neg = some ((neg.drop 2).take (neg.getD 1 0)) := by
    have h3 : ¬ (neg.length < 3 ∨ neg[0]? ≠ some SOCKS_VERSION) := by
      simp [hver, SOCKS_VERSION]
      omega
    simp [negotiateAuth, h3, Buffer.slice, List.drop_take]
  refine ⟨hneg, ?_, ?_⟩
  · rintro ⟨h0, h2⟩
    have hcond : ¬ (cfg.auth = true ∧
        SOCKS_AUTH_USER_PASS ∈ (neg.drop 2).take (neg.getD 1 0)) := by
      rintro ⟨ha, hm⟩
      rcases h2 with h2 | h2
      · simp [ha] at h2
      · exact h2 hm
    have hnone : ¬ (SOCKS_AUTH_NONE ∉ (neg.drop 2).take (neg.getD 1 0)) := fun h => h h0
    have hstep : handleClient bufToString cfg (events ++ [Event.data neg]) =
        startRequest (Session.emit ⟨Phase.negotiating, [], nt, rt, false⟩
          [Effect.write [SOCKS_VERSION, SOCKS_AUTH_NONE]] Phase.negotiating) := by
      rw [handleClient_append, hs]
      simp only [run, List.foldl, step, onData, hneg, afterNegotiation, if_neg hcond,
        if_neg hnone]
    rw [hstep]
    exact ⟨rfl, rfl, rfl⟩
  · rintro ⟨h0, h2⟩ later
    have hstep : step bufToString cfg ⟨Phase.negotiating, [], nt, rt, false⟩ (Event.data neg) =
        Session.emit ⟨Phase.negotiating, [], nt, rt, false⟩
          [Effect.write [SOCKS_VERSION, 0xFF], Effect.endClient] Phase.closed := by
      have hnone : SOCKS_AUTH_NONE ∉ (neg.drop 2).take (neg.getD 1 0) := h0
      have hcond : ¬ (cfg.auth = true ∧
          SOCKS_AUTH_USER_PASS ∈ (neg.drop 2).take (neg.getD 1 0)) := h2
      simp only [step, onData, hneg, afterNegotiation]
      rw [if_neg hcond, if_pos hnone]
    rw [handleClient_append, hs, hstep]
    obtain ⟨h1, h3⟩ := run_closed bufToString cfg later _ (rfl : (Session.emit
      ⟨Phase.negotiating, [], nt, rt, false⟩
      [Effect.write [SOCKS_VERSION, 0xFF], Effect.endClient] Phase.closed).phase = Phase.closed)
    refine ⟨h1, ?_⟩
    rw [h3]
    simp [Session.emit, visible, SOCKS_VERSION]

/-- C3, on a server with `auth` set and a client offering only method 0x00. -/
theorem method_selection_without_auth_witness :
    (handleClient asciiToString ⟨true, some "user", some "pass"⟩ [Event.data [5, 1, 0]]).effects =
      [Effect.write [0x05, 0x00]] :=
  ((method_selection_without_auth asciiToString ⟨true, some "user", some "pass"⟩ [] [5, 1, 0]
    (by decide) (by decide) (by decide)).2.1 (by decide)).1

/-- A refused connect request: the reply is written, the client connection is
ended, and the session stays closed with nothing else done. -/
theorem refused_then_closed (bufToString : Buffer → String) (cfg : Config)
    (events : List Event) (chunk reply : Buffer)
    (hphase : (handleClient bufToString cfg events).phase = Phase.awaitingRequest)
    (hreq : receiveConnectRequest bufToString chunk = RequestOutcome.refused reply) :
    ∃ w, w.length = 2 ∧ (handleClient bufToString cfg events).effects = [Effect.write w] ∧
      ∀ later,
        (handleClient bufToString cfg (events ++ Event.data chunk :: later)).phase =
          Phase.closed ∧
        visible (handleClient bufToString cfg (events ++ Event.data chunk :: later)).effects =
          [Effect.write w, Effect.write reply, Effect.endClient] := by
  have hinv := handleClient_inv bufToString cfg events
  generalize hs : handleClient bufToString cfg events = s at hinv hphase
  obtain ⟨phase, effects, nt, rt, dt⟩ := s
  simp only at hphase
  subst hphase
  simp only [Inv] at hinv
  obtain ⟨hdt, w, heff, hw⟩ := hinv
  subst hdt heff
  refine ⟨w, hw, rfl, ?_⟩
  intro later
  have hstep : step bufToString cfg ⟨Phase.awaitingRequest, [Effect.write w], nt, rt, false⟩
      (Event.data chunk) =
      Session.emit ⟨Phase.awaitingRequest, [Effect.write w], nt, rt, false⟩
        [Effect.write reply, Effect.endClient] Phase.closed := by
    simp only [step, onData, hreq]
  rw [handleClient_append, hs, hstep]
  obtain ⟨h1, h2⟩ := run_closed bufToString cfg later _ (rfl : (Session.emit
    ⟨Phase.awaitingRequest, [Effect.write w], nt, rt, false⟩
    [Effect.write reply, Effect.endClient] Phase.closed).phase = Phase.closed)
  refine ⟨h1, ?_⟩
  rw [h2]
  simp [Session.emit, visible]

/-- What a session that was refused with a 10-byte reply has done, whatever
comes later. -/
theorem refused_summary (effects : List Effect) (w reply : Buffer) (hw : w.length = 2)
    (hreply : reply.length = 10)
    (hvis : visible effects = [Effect.write w, Effect.write reply, Effect.endClient]) :
    replies effects = [reply] ∧ Effect.endClient ∈ effects ∧
      (∀ host port, Effect.connect host port ∉ effects) ∧ Effect.pipe ∉ effects := by
  refine ⟨?_, ?_, ?_, ?_⟩
  · rw [← replies_visible, hvis]
    simp [replies, hw, hreply]
  · rw [← mem_visible _ _ (by simp), hvis]
    simp
  · intro host port
    rw [← mem_visible _ _ (by simp), hvis]
    simp
  · rw [← mem_visible _ _ (by simp), hvis]
    simp

/-! ## Refused connect requests -/

/-- C7: a connect-request message whose byte at index 1 is not 0x01 makes
`receiveConnectRequest` write the reply with status 0x07 and resolve with no
request; `handleClient` then ends the client connection, and on no later event
does the session write another reply, call `connectToTarget` or start piping. -/
theorem unsupported_command_refused (bufToString : Buffer → String) (cfg : Config)
    (events : List Event) (chunk : Buffer)
    (hphase : (handleClient bufToString cfg events).phase = Phase.awaitingRequest)
    (hcmd : chunk[1]? ≠ some 0x01) :
    receiveConnectRequest bufToString chunk =
      RequestOutcome.refused [0x05, 0x07, 0x00, 0x01, 0, 0, 0, 0, 0, 0] ∧
    (handleClient bufToString cfg (events ++ [Event.data chunk])).effects =
      (handleClient bufToString cfg events).effects ++
        [Effect.write [0x05, 0x07, 0x00, 0x01, 0, 0, 0, 0, 0, 0], Effect.endClient] ∧
    ∀ later,
      (handleClient bufToString cfg (events ++ Event.data chunk :: later)).phase =
        Phase.closed ∧
      replies (handleClient bufToString cfg (events ++ Event.data chunk :: later)).effects =
        [[0x05, 0x07, 0x00, 0x01, 0, 0, 0, 0, 0, 0]] ∧
      Effect.endClient ∈
        (handleClient bufToString cfg (events ++ Event.data chunk :: later)).effects ∧
      (∀ host port, Effect.connect host port ∉
        (handleClient bufToString cfg (events ++ Event.data chunk :: later)).effects) ∧
      Effect.pipe ∉
        (handleClient bufToString cfg (events ++ Event.data chunk :: later)).effects := by
  have hreq : receiveConnectRequest bufToString chunk =
      RequestOutcome.refused [0x05, 0x07, 0x00, 0x01, 0, 0, 0, 0, 0, 0] := by
    have hhead : chunk.length < 7 ∨ chunk[0]? ≠ some SOCKS_VERSION ∨
        chunk[1]? ≠ some SOCKS_CMD_CONNECT := Or.inr (Or.inr hcmd)
    simp only [receiveConnectRequest, if_pos hhead, refuse_07]
  obtain ⟨w, hw, heff, hlater⟩ := refused_then_closed bufToString cfg events chunk _ hphase hreq
  refine ⟨hreq, ?_, ?_⟩
  · rw [handleClient_append]
    generalize handleClient bufToString cfg events = s at hphase
    simp only [run, List.foldl, step, onData, hphase, hreq, Session.emit]
  · intro later
    obtain ⟨h1, h2⟩ := hlater later
    exact ⟨h1, refused_summary _ w _ hw rfl h2⟩

/-- C7, on a BIND request (command 0x02) sent after the offer `[5, 1, 0]`. -/
theorem unsupported_command_refused_witness :
    (handleClient asciiToString ⟨false, none, none⟩
      [Event.data [5, 1, 0], Event.data [5, 2, 0, 1, 10, 0, 0, 1, 0, 80]]).effects =
      [Effect.write [0x05, 0x00],
        Effect.write [0x05, 0x07, 0x00, 0x01, 0, 0, 0, 0, 0, 0], Effect.endClient] :=
  (unsupported_command_refused asciiToString ⟨false, none, none⟩ [Event.data [5, 1, 0]]
    [5, 2, 0, 1, 10, 0, 0, 1, 0, 80] (by decide) (by decide)).2.1

/-- C8: a connect request of at least 7 bytes with version 0x05 and command
0x01 whose address type is none of 0x01, 0x03, 0x04 makes
`receiveConnectRequest` write the reply with status 0x08 and resolve with no
request; `handleClient` then ends the client connection, and on no later event
does the session write another reply, call `connectToTarget` or start piping. -/
theorem unsupported_address_type_refused (bufToString : Buffer → String) (cfg : Config)
    (events : List Event) (chunk : Buffer)
    (hphase : (handleClient bufToString cfg events).phase = Phase.awaitingRequest)
    (hlen : 7 ≤ chunk.length) (hver : chunk[0]? = some 0x05) (hcmd : chunk[1]? = some 0x01)
    (htyp : chunk[3]? ≠ some 0x01 ∧ chunk[3]? ≠ some 0x03 ∧ chunk[3]? ≠ some 0x04) :
    receiveConnectRequest bufToString chunk =
      RequestOutcome.refused [0x05, 0x08, 0x00, 0x01, 0, 0, 0, 0, 0, 0] ∧
    (handleClient bufToString cfg (events ++ [Event.data chunk])).effects =
      (handleClient bufToString cfg events).effects ++
        [Effect.write [0x05, 0x08, 0x00, 0x01, 0, 0, 0, 0, 0, 0], Effect.endClient] ∧
    ∀ later,
      (handleClient bufToString cfg (events ++ Event.data chunk :: later)).phase =
        Phase.closed ∧
      replies (handleClient bufToString cfg (events ++ Event.data chunk :: later)).effects =
        [[0x05, 0x08, 0x00, 0x01, 0, 0, 0, 0, 0, 0]] ∧
      Effect.endClient ∈
        (handleClient bufToString cfg (events ++ Event.data chunk :: later)).effects ∧
      (∀ host port, Effect.connect host port ∉
        (handleClient bufToString cfg (events ++ Event.data chunk :: later)).effects) ∧
      Effect.pipe ∉
        (handleClient bufToString cfg (events ++ Event.data chunk :: later)).effects := by
  have hreq : receiveConnectRequest bufToString chunk =
      RequestOutcome.refused [0x05, 0x08, 0x00, 0x01, 0, 0, 0, 0, 0, 0] := by
    obtain ⟨t, ht⟩ : ∃ v, chunk[3]? = some v := ⟨_, List.getElem?_eq_getElem (by omega)⟩
    rw [ht] at htyp
    simp only [Option.some.injEq, ne_eq] at htyp
    simp only [receiveConnectRequest, if_neg (header_ok chunk hlen hver hcmd), ht,
      Option.getD_some, SOCKS_ATYP_IPV4, SOCKS_ATYP_DOMAIN, SOCKS_ATYP_IPV6, if_neg htyp.1,
      if_neg htyp.2.1, if_neg htyp.2.2, refuse_08]
  obtain ⟨w, hw, heff, hlater⟩ := refused_then_closed bufToString cfg events chunk _ hphase hreq
  refine ⟨hreq, ?_, ?_⟩
  · rw [handleClient_append]
    generalize handleClient bufToString cfg events = s at hphase
    simp only [run, List.foldl, step, onData, hphase, hreq, Session.emit]
  · intro later
    obtain ⟨h1, h2⟩ := hlater later
    exact ⟨h1, refused_summary _ w _ hw rfl h2⟩

/-- C8, on a request with address type 0x09 sent after the offer `[5, 1, 0]`. -/
theorem unsupported_address_type_refused_witness :
    (handleClient asciiToString ⟨false, none, none⟩
      [Event.data [5, 1, 0], Event.data [5, 1, 0, 9, 10, 0, 0, 1, 0, 80]]).effects =
      [Effect.write [0x05, 0x00],
        Effect.write [0x05, 0x08, 0x00, 0x01, 0, 0, 0, 0, 0, 0], Effect.endClient] :=
  (unsupported_address_type_refused asciiToString ⟨false, none, none⟩ [Event.data [5, 1, 0]]
    [5, 1, 0, 9, 10, 0, 0, 1, 0, 80] (by decide) (by decide) (by decide) (by decide)
    (by decide)).2.1

/-- A dial that fails while `connectToTarget` is pending, by an `error` on the
target socket or by the 15 s timer: the failure reply is the only reply, the
client connection is ended, and nothing is piped, whatever comes later. -/
theorem dial_failure_closes (bufToString : Buffer → String) (cfg : Config)
    (events : List Event) (e : Event) (later : List Event)
    (hphase : (handleClient bufToString cfg events).phase = Phase.connecting)
    (he : e = Event.dialFailed ∨ e = Event.timerFired Timer.dial) :
    (handleClient bufToString cfg (events ++ e :: later)).phase = Phase.closed ∧
    replies (handleClient bufToString cfg (events ++ e :: later)).effects =
      [[0x05, 0x01, 0x00, 0x01, 0, 0, 0, 0, 0, 0]] ∧
    Effect.endClient ∈ (handleClient bufToString cfg (events ++ e :: later)).effects ∧
    Effect.pipe ∉ (handleClient bufToString cfg (events ++ e :: later)).effects := by
  have hinv := handleClient_inv bufToString cfg events
  generalize hs : handleClient bufToString cfg events = s at hinv hphase
  obtain ⟨phase, effects, nt, rt, dt⟩ := s
  simp only at hphase
  subst hphase
  simp only [Inv] at hinv
  obtain ⟨hdt, w, host, port, heff, hw⟩ := hinv
  subst hdt heff
  obtain ⟨mid, hmid, dt', hstep⟩ : ∃ mid, (mid = [] ∨ mid = [Effect.destroyTarget]) ∧ ∃ dt',
      step bufToString cfg
        ⟨Phase.connecting, [Effect.write w, Effect.connect host port], nt, rt, true⟩ e =
      ⟨Phase.closed, [Effect.write w, Effect.connect host port] ++ mid ++
        [Effect.write [0x05, 0x01, 0x00, 0x01, 0, 0, 0, 0, 0, 0], Effect.endClient],
        nt, rt, dt'⟩ := by
    rcases he with rfl | rfl
    · exact ⟨[], Or.inl rfl, true, by simp [step, establishCatch_eq, Session.emit]⟩
    · exact ⟨[Effect.destroyTarget], Or.inr rfl, false, by
        simp [step, onTimer, establishCatch_eq, Session.emit]⟩
  rw [handleClient_append, hs, hstep]
  obtain ⟨h1, h2, h3⟩ := after_closed bufToString cfg
    ⟨Phase.closed, [Effect.write w, Effect.connect host port] ++ mid ++
      [Effect.write [0x05, 0x01, 0x00, 0x01, 0, 0, 0, 0, 0, 0], Effect.endClient], nt, rt, dt'⟩
    later rfl
  refine ⟨h1, ?_, ?_, ?_⟩
  · rw [h2]
    exact replies_failure w host port mid hw hmid
  · rw [h3 _ (by simp)]
    simp
  · rw [h3 _ (by simp)]
    rcases hmid with rfl | rfl <;> simp

/-! ## One reply, and piping only after success -/

/-- C10: on every run of `handleClient` at most one 10-byte connect reply has
been written to the client and every start of piping comes after the write of
a reply with status 0x00; and when the dial fails while `connectToTarget` is
pending, the only reply ever written has status 0x01, the client connection is
ended and piping is never started. -/
theorem one_reply_and_relay_after_success (bufToString : Buffer → String) (cfg : Config)
    (events : List Event) :
    (replies (handleClient bufToString cfg events).effects).length ≤ 1 ∧
    PipedAfterSuccess (handleClient bufToString cfg events).effects ∧
    ((handleClient bufToString cfg events).phase = Phase.connecting →
      ∀ e, e = Event.dialFailed ∨ e = Event.timerFired Timer.dial →
        ∀ later,
          (handleClient bufToString cfg (events ++ e :: later)).phase = Phase.closed ∧
          replies (handleClient bufToString cfg (events ++ e :: later)).effects =
            [[0x05, 0x01, 0x00, 0x01, 0, 0, 0, 0, 0, 0]] ∧
          Effect.endClient ∈ (handleClient bufToString cfg (events ++ e :: later)).effects ∧
          Effect.pipe ∉ (handleClient bufToString cfg (events ++ e :: later)).effects) := by
  obtain ⟨h1, h2⟩ := safe_of_inv _ (handleClient_inv bufToString cfg events)
  exact ⟨h1, h2, fun hphase e he later =>
    dial_failure_closes bufToString cfg events e later hphase he⟩

/-- C10, on a session whose dial is refused and whose dial timer fires later. -/
theorem one_reply_and_relay_after_success_witness :
    replies (handleClient asciiToString ⟨false, none, none⟩
      [Event.data [5, 1, 0], Event.data [5, 1, 0, 1, 10, 0, 0, 1, 0, 80], Event.dialFailed,
        Event.timerFired Timer.dial, Event.dialSucceeded none none]).effects =
      [[0x05, 0x01, 0x00, 0x01, 0, 0, 0, 0, 0, 0]] :=
  ((one_reply_and_relay_after_success asciiToString ⟨false, none, none⟩
    [Event.data [5, 1, 0], Event.data [5, 1, 0, 1, 10, 0, 0, 1, 0, 80]]).2.2 (by decide)
    Event.dialFailed (Or.inl rfl)
    [Event.timerFired Timer.dial, Event.dialSucceeded none none]).2.1

/-! ## The connect reply -/

/-- C9: for a status byte and a port up to 65535, `sendConnectionResponse`
writes 10 bytes: 0x05, the status, 0x00, 0x01, four address bytes and the port
big-endian.  The address bytes are the octets of a dotted quad, all zero when
the address has other than three dots, and the reply with the default address
and port ends in six zero bytes. -/
theorem connection_response_layout (status : Nat) (address : String) (port : Nat)
    (hstatus : status < 256) (hport : port ≤ 65535) :
    (∃ a0 a1 a2 a3, a0 < 256 ∧ a1 < 256 ∧ a2 < 256 ∧ a3 < 256 ∧
      sendConnectionResponse status (some address) (some port) =
        some [0x05, status, 0x00, 0x01, a0, a1, a2, a3, port / 256, port % 256]) ∧
    (∀ a b c d, a < 256 → b < 256 → c < 256 → d < 256 →
      address = toString a ++ "." ++ toString b ++ "." ++ toString c ++ "." ++ toString d →
      sendConnectionResponse status (some address) (some port) =
        some [0x05, status, 0x00, 0x01, a, b, c, d, port / 256, port % 256]) ∧
    (address.data.count '.' ≠ 3 →
      sendConnectionResponse status (some address) (some port) =
        some [0x05, status, 0x00, 0x01, 0, 0, 0, 0, port / 256, port % 256]) ∧
    sendConnectionResponse status none none =
      some [0x05, status, 0x00, 0x01, 0, 0, 0, 0, 0, 0] := by
  have hmod : status % 256 = status := Nat.mod_eq_of_lt hstatus
  refine ⟨?_, ?_, ?_, ?_⟩
  · by_cases h4 : (splitDot address.data).length = 4
    · exact ⟨storeByte (parseInt ((splitDot address.data).getD 0 [])),
        storeByte (parseInt ((splitDot address.data).getD 1 [])),
        storeByte (parseInt ((splitDot address.data).getD 2 [])),
        storeByte (parseInt ((splitDot address.data).getD 3 [])),
        storeByte_lt _, storeByte_lt _, storeByte_lt _, storeByte_lt _, by
        simp [sendConnectionResponse, writeUInt16BE, hport, h4, hmod, SOCKS_VERSION,
          SOCKS_ATYP_IPV4]⟩
    · exact ⟨0, 0, 0, 0, by decide, by decide, by decide, by decide, by
        simp [sendConnectionResponse, writeUInt16BE, hport, h4, hmod, SOCKS_VERSION,
          SOCKS_ATYP_IPV4]⟩
  · intro a b c d ha hb hc hd haddr
    obtain ⟨na, pa⟩ := octet_text a ha
    obtain ⟨nb, pb⟩ := octet_text b hb
    obtain ⟨nc, pc⟩ := octet_text c hc
    obtain ⟨nd, pd⟩ := octet_text d hd
    have hsplit : splitDot address.data =
        [(toString a).data, (toString b).data, (toString c).data, (toString d).data] := by
      have hdot : (".".data : List Char) = ['.'] := rfl
      rw [haddr]
      simp only [String.data_append, hdot, List.append_assoc, List.singleton_append,
        List.cons_append, List.nil_append]
      rw [splitDot_append _ _ na, splitDot_append _ _ nb, splitDot_append _ _ nc,
        splitDot_of_not_mem _ nd]
    simp [sendConnectionResponse, writeUInt16BE, hport, hsplit, hmod, SOCKS_VERSION,
      SOCKS_ATYP_IPV4, pa, pb, pc, pd]
  · intro hcount
    have h4 : (splitDot address.data).length ≠ 4 := by
      rw [splitDot_length]
      omega
    simp [sendConnectionResponse, writeUInt16BE, hport, h4, hmod, SOCKS_VERSION,
      SOCKS_ATYP_IPV4]
  · have h0 : splitDot ("0.0.0.0" : String).data = [['0'], ['0'], ['0'], ['0']] := by decide
    have hz : storeByte (parseInt ['0']) = 0 := by decide
    simp [sendConnectionResponse, writeUInt16BE, h0, hz, hmod, SOCKS_VERSION, SOCKS_ATYP_IPV4]

/-- C9, on status 0x00 and port 8080, with the bound address `192.168.1.10` and
with the IPv6 literal `::1`. -/
theorem connection_response_layout_witness :
    sendConnectionResponse 0x00 (some "192.168.1.10") (some 8080) =
        some [0x05, 0x00, 0x00, 0x01, 192, 168, 1, 10, 0x1F, 0x90] ∧
      sendConnectionResponse 0x00 (some "::1") (some 8080) =
        some [0x05, 0x00, 0x00, 0x01, 0, 0, 0, 0, 0x1F, 0x90] :=
  ⟨(connection_response_layout 0x00 "192.168.1.10" 8080 (by decide) (by decide)).2.1
      192 168 1 10 (by decide) (by decide) (by decide) (by decide) (by decide),
    (connection_response_layout 0x00 "::1" 8080 (by decide) (by decide)).2.2.1 (by decide)⟩

/-! ## Decoding connect requests -/

/-- C4: a CONNECT request of at least 22 bytes with address type 0x04 resolves
to the host made of the eight big-endian 16-bit groups of bytes 4..19, each in
lowercase hexadecimal without leading zeros, joined by colons, and to the port
`256 * b[20] + b[21]`; nothing is logged about it. -/
theorem ipv6_request_decoded (bufToString : Buffer → String) (data : Buffer)
    (hbytes : data.isBytes) (hlen : 22 ≤ data.length) (hver : data[0]? = some 0x05)
    (hcmd : data[1]? = some 0x01) (htyp : data[3]? = some 0x04) :
    receiveConnectRequest bufToString data =
      RequestOutcome.resolved
        ⟨String.intercalate ":" ((List.range 8).map
            (fun i => hexGroup (256 * data.getD (4 + 2 * i) 0 + data.getD (5 + 2 * i) 0))),
          256 * data.getD 20 0 + data.getD 21 0⟩ false := by
  have hgroup : ∀ i, toString16 (256 * data.getD (4 + 2 * i) 0 + data.getD (5 + 2 * i) 0) =
      hexGroup (256 * data.getD (4 + 2 * i) 0 + data.getD (5 + 2 * i) 0) := by
    intro i
    have h1 := getD_lt_of_isBytes data hbytes (4 + 2 * i)
    have h2 := getD_lt_of_isBytes data hbytes (5 + 2 * i)
    exact toString16_eq_hexGroup _ (by omega)
  simp only [receiveConnectRequest, if_neg (header_ok data (by omega) hver hcmd), htyp,
    Option.getD_some, ipv6Parts_of_le data (by omega), finishRequest,
    readUInt16BE_of_le data 20 (by omega), hgroup]
  simp [SOCKS_ATYP_IPV4, SOCKS_ATYP_DOMAIN, SOCKS_ATYP_IPV6]

/-- C4, on the request for `::1` port 8080: the host is `0:0:0:0:0:0:0:1`. -/
theorem ipv6_request_decoded_witness :
    receiveConnectRequest asciiToString
        [5, 1, 0, 4, 0, 0, 0, 0, 0, 0, 0, 0, 0, 0, 0, 0, 0, 0, 0, 1, 0x1F, 0x90] =
      RequestOutcome.resolved ⟨"0:0:0:0:0:0:0:1", 8080⟩ false :=
  (ipv6_request_decoded asciiToString
    [5, 1, 0, 4, 0, 0, 0, 0, 0, 0, 0, 0, 0, 0, 0, 0, 0, 0, 0, 1, 0x1F, 0x90]
    (by decide) (by decide) (by decide) (by decide) (by decide)).trans (by decide)

/-- C5: a CONNECT request with address type 0x03, length byte `d` and at least
`7 + d` bytes resolves to the host decoded from the `d` bytes after the length
byte and to the port `256 * b[5+d] + b[6+d]`, whatever the GeForce Now test
says: a host outside the list only sets the warning. -/
theorem domain_request_decoded (bufToString : Buffer → String) (d : Nat) (data : Buffer)
    (hlen : 7 + d ≤ data.length) (hver : data[0]? = some 0x05)
    (hcmd : data[1]? = some 0x01) (htyp : data[3]? = some 0x03) (hd : data[4]? = some d) :
    ((data.drop 5).take d).length = d ∧
    receiveConnectRequest bufToString data =
      RequestOutcome.resolved
        ⟨bufToString ((data.drop 5).take d), 256 * data.getD (5 + d) 0 + data.getD (6 + d) 0⟩
        (!isGeForceNow (bufToString ((data.drop 5).take d))) := by
  refine ⟨by simp; omega, ?_⟩
  have hs : data.slice 5 (5 + d) = (data.drop 5).take d := by
    simp [Buffer.slice, List.drop_take]
  have h6 : 5 + d + 1 = 6 + d := by omega
  simp only [receiveConnectRequest, if_neg (header_ok data (by omega) hver hcmd), htyp, hd,
    Option.getD_some, finishRequest, readUInt16BE_of_le data (5 + d) (by omega), hs, h6]
  simp [SOCKS_ATYP_IPV4, SOCKS_ATYP_DOMAIN]

/-- C5, on the request for `example.com` port 443, a host outside the
GeForce Now list. -/
theorem domain_request_decoded_witness :
    receiveConnectRequest asciiToString
        [5, 1, 0, 3, 11, 101, 120, 97, 109, 112, 108, 101, 46, 99, 111, 109, 0x01, 0xBB] =
      RequestOutcome.resolved ⟨"example.com", 443⟩ true :=
  (domain_request_decoded asciiToString 11
    [5, 1, 0, 3, 11, 101, 120, 97, 109, 112, 108, 101, 46, 99, 111, 109, 0x01, 0xBB]
    (by decide) (by decide) (by decide) (by decide) (by decide)).2.trans (by decide)

/-- C6: a CONNECT request of at least 10 bytes with address type 0x01 resolves
to the host `b[4].b[5].b[6].b[7]` in decimal and to the port
`256 * b[8] + b[9]`. -/
theorem ipv4_request_decoded (bufToString : Buffer → String) (data : Buffer)
    (hlen : 10 ≤ data.length) (hver : data[0]? = some 0x05) (hcmd : data[1]? = some 0x01)
    (htyp : data[3]? = some 0x01) :
    receiveConnectRequest bufToString data =
      RequestOutcome.resolved
        ⟨toString (data.getD 4 0) ++ "." ++ toString (data.getD 5 0) ++ "." ++
          toString (data.getD 6 0) ++ "." ++ toString (data.getD 7 0),
          256 * data.getD 8 0 + data.getD 9 0⟩ false := by
  simp only [receiveConnectRequest, if_neg (header_ok data (by omega) hver hcmd), htyp,
    Option.getD_some, SOCKS_ATYP_IPV4, finishRequest, readUInt16BE_of_le data 8 (by omega),
    renderElem_of_lt data 4 (by omega), renderElem_of_lt data 5 (by omega),
    renderElem_of_lt data 6 (by omega), renderElem_of_lt data 7 (by omega)]
  simp [SOCKS_ATYP_DOMAIN]

/-- C6, on address bytes 192, 168, 1, 1 and port bytes 0x1F, 0x90. -/
theorem ipv4_request_decoded_witness :
    receiveConnectRequest asciiToString [5, 1, 0, 1, 192, 168, 1, 1, 0x1F, 0x90] =
      RequestOutcome.resolved ⟨"192.168.1.1", 8080⟩ false :=
  (ipv4_request_decoded asciiToString [5, 1, 0, 1, 192, 168, 1, 1, 0x1F, 0x90]
    (by decide) (by decide) (by decide) (by decide)).trans (by decide)

/-! ## Truncated messages and the dial timer -/

/-- A username/password message whose first byte is not 0x01 is rejected,
whatever the configured credentials are. -/
theorem authenticateUser_bad_version (bufToString : Buffer → String) (cfg : Config)
    (data : Buffer) (hver : data[0]? ≠ some 0x01) :
    authenticateUser bufToString cfg data = ([0x01, 0xFF], false) := by
  have hhead : data.length < 3 ∨ data[0]? ≠ some 0x01 := Or.inr hver
  simp only [authenticateUser, if_pos hhead]

/-- C11: the message `[1, 4, "user", 10, "pass"]` declares a 10-byte password
and carries 4 bytes; with the configured pair `user` / `pass` the handler of
`authenticateUser` extracts the password `pass` from the clamped slice, writes
`[0x01, 0x00]` and resolves `true`, and `handleClient` goes on to await the
connect request. -/
theorem truncated_password_accepted :
    authenticateUser asciiToString ⟨true, some "user", some "pass"⟩
        [0x01, 4, 117, 115, 101, 114, 10, 112, 97, 115, 115] = ([0x01, 0x00], true) ∧
    (handleClient asciiToString ⟨true, some "user", some "pass"⟩
      [Event.data [5, 1, 2],
        Event.data [0x01, 4, 117, 115, 101, 114, 10, 112, 97, 115, 115]]).phase =
      Phase.awaitingRequest ∧
    (handleClient asciiToString ⟨true, some "user", some "pass"⟩
      [Event.data [5, 1, 2],
        Event.data [0x01, 4, 117, 115, 101, 114, 10, 112, 97, 115, 115]]).effects =
      [Effect.write [0x01, 0x00]] := by
  decide

/-- A CONNECT request with address type 0x01 and 7 to 9 bytes passes the
length check of the handler and raises in `readUInt16BE(8)`. -/
theorem short_ipv4_request_thrown (bufToString : Buffer → String) (data : Buffer)
    (hlen : 7 ≤ data.length) (hshort : data.length < 10) (hver : data[0]? = some 0x05)
    (hcmd : data[1]? = some 0x01) (htyp : data[3]? = some 0x01) :
    receiveConnectRequest bufToString data = RequestOutcome.thrown := by
  have h9 : data[8 + 1]? = none := List.getElem?_eq_none (by omega)
  simp only [receiveConnectRequest, if_neg (header_ok data hlen hver hcmd), htyp,
    Option.getD_some, SOCKS_ATYP_IPV4, finishRequest, readUInt16BE, h9]
  split <;> simp_all

/-- C12: on the 7 bytes `[5, 1, 0, 1, 1, 2, 3]` the handler of
`receiveConnectRequest` ends in none of the three outcomes: `readUInt16BE(8)`
raises, no reply is written, and the exception leaves the handler outside
every `try` of the session.  The same happens on a short domain request and
on a short IPv6 request. -/
theorem short_request_escapes :
    receiveConnectRequest asciiToString [5, 1, 0, 1, 1, 2, 3] = RequestOutcome.thrown ∧
    receiveConnectRequest asciiToString [5, 1, 0, 3, 5, 97, 98] = RequestOutcome.thrown ∧
    receiveConnectRequest asciiToString [5, 1, 0, 4, 0, 0, 0, 0, 0, 1] = RequestOutcome.thrown ∧
    handleClient asciiToString ⟨false, none, none⟩
        [Event.data [5, 1, 0], Event.data [5, 1, 0, 1, 1, 2, 3]] =
      { phase := Phase.crashed,
        effects := [Effect.write [0x05, 0x00], Effect.uncaught],
        negotiationTimer := true, requestTimer := true, dialTimer := false } := by
  decide

/-- C13: on a run where the target connection is established and the 15 s
timer of `connectToTarget` fires afterwards, the timer callback destroys the
established target socket, whose `close` handler destroys the client socket:
the relay is torn down. -/
theorem dial_timer_destroys_relay :
    (handleClient asciiToString ⟨false, none, none⟩
      [Event.data [5, 1, 0], Event.data [5, 1, 0, 1, 10, 0, 0, 1, 0, 80],
        Event.dialSucceeded (some "10.0.0.2") (some 50000)]).phase = Phase.relaying ∧
    handleClient asciiToString ⟨false, none, none⟩
        [Event.data [5, 1, 0], Event.data [5, 1, 0, 1, 10, 0, 0, 1, 0, 80],
          Event.dialSucceeded (some "10.0.0.2") (some 50000), Event.timerFired Timer.dial] =
      { phase := Phase.closed,
        effects := [Effect.write [0x05, 0x00], Effect.connect "10.0.0.1" 80,
          Effect.write [0x05, 0x00, 0x00, 0x01, 10, 0, 0, 2, 0xC3, 0x50], Effect.pipe,
          Effect.destroyTarget, Effect.destroyClient],
        negotiationTimer := true, requestTimer := true, dialTimer := false } := by
  decide

/-- The dial timer is never cleared: it is still set in every relaying session. -/
theorem step_relaying_dialTimer (bufToString : Buffer → String) (cfg : Config) (s : Session)
    (e : Event) (hinv : Inv s) (hj : s.phase = Phase.relaying → s.dialTimer = true)
    (hrel : (step bufToString cfg s e).phase = Phase.relaying) :
    (step bufToString cfg s e).dialTimer = true := by
  obtain ⟨phase, effects, nt, rt, dt⟩ := s
  cases phase
  case connecting =>
    simp only [Inv] at hinv
    obtain ⟨hdt, -⟩ := hinv
    subst hdt
    cases e with
    | data chunk => simp [step, onData] at hrel
    | dialSucceeded a p =>
      simp only [step, if_true, establishSuccess, establishCatch_eq] at hrel ⊢
      split <;> simp_all [Session.emit]
    | dialFailed => simp [step, establishCatch_eq, Session.emit] at hrel
    | timerFired t =>
      cases t <;> simp only [step, onTimer] at hrel ⊢ <;> split_ifs at hrel ⊢ <;>
        simp_all [establishCatch_eq, Session.emit]
  case relaying =>
    have hdt : dt = true := hj rfl
    subst hdt
    cases e with
    | data chunk => simp [step, onData]
    | dialSucceeded a p => simp [step]
    | dialFailed => simp [step, Session.emit] at hrel
    | timerFired t =>
      cases t <;> simp only [step, onTimer] at hrel ⊢ <;> split_ifs at hrel ⊢ <;>
        simp_all [Session.emit]
  all_goals
    exfalso
    revert hrel
    cases e with
    | data chunk =>
      simp only [step, onData]
      repeat' split
      all_goals simp [handleClientCatch, afterNegotiation, startRequest, connectToTarget,
        Session.emit]
      all_goals repeat' split
      all_goals simp
    | dialSucceeded a p => simp [step]
    | dialFailed => simp [step]
    | timerFired t =>
      cases t <;> simp only [step, onTimer] <;> split_ifs <;>
        simp [handleClientCatch, Session.emit]

theorem run_relaying_dialTimer (bufToString : Buffer → String) (cfg : Config)
    (events : List Event) :
    ∀ s : Session, Inv s → (s.phase = Phase.relaying → s.dialTimer = true) →
      (run bufToString cfg s events).phase = Phase.relaying →
      (run bufToString cfg s events).dialTimer = true := by
  induction events with
  | nil => intro s _ hj hrel; exact hj hrel
  | cons e es ih =>
    intro s hinv hj hrel
    exact ih (step bufToString cfg s e) (step_inv bufToString cfg s e hinv)
      (step_relaying_dialTimer bufToString cfg s e hinv hj) hrel

/-- Whenever a session is relaying, the firing of the dial timer destroys the
target socket and then the client socket. -/
theorem dial_timer_ends_every_relay (bufToString : Buffer → String) (cfg : Config)
    (events : List Event)
    (hrel : (handleClient bufToString cfg events).phase = Phase.relaying) :
    (handleClient bufToString cfg (events ++ [Event.timerFired Timer.dial])).phase =
      Phase.closed ∧
    (handleClient bufToString cfg (events ++ [Event.timerFired Timer.dial])).effects =
      (handleClient bufToString cfg events).effects ++
        [Effect.destroyTarget, Effect.destroyClient] := by
  have hdt := run_relaying_dialTimer bufToString cfg events Session.init inv_init
    (by simp [Session.init]) hrel
  rw [handleClient_append]
  change (handleClient bufToString cfg events).dialTimer = true at hdt
  generalize handleClient bufToString cfg events = s at hrel hdt
  simp [run, step, onTimer, hrel, hdt, Session.emit]

end Socks5

namespace ProxyApi

/-! ## The GeForce Now domain check of `handleProxy` -/

/-- What the domain check computes: the hostname is one of the four listed
names or has `geforcenow.com` as a suffix. -/
theorem isGeForceNow_iff (targetDomain : String) :
    isGeForceNow targetDomain = true ↔
      targetDomain = "play.geforcenow.com" ∨ targetDomain = "gfn-web.nvidia.com" ∨
      targetDomain = "api.geforcenow.com" ∨ targetDomain = "auth.geforcenow.com" ∨
      endsWith targetDomain "geforcenow.com" = true := by
  have h1 : startsWith "play.geforcenow.com" "*." = false := by decide
  have h2 : startsWith "gfn-web.nvidia.com" "*." = false := by decide
  have h3 : startsWith "api.geforcenow.com" "*." = false := by decide
  have h4 : startsWith "auth.geforcenow.com" "*." = false := by decide
  have h5 : startsWith "*.geforcenow.com" "*." = true := by decide
  have h6 : slice2 "*.geforcenow.com" = "geforcenow.com" := by decide
  simp [isGeForceNow, GEFORCE_DOMAINS, domainMatches, h1, h2, h3, h4, h5, h6]

/-- A hostname that fails the check gets the 403 response. -/
theorem rejected_gets_403 (hostname : String → Option String)
    (encodeUrl : Backend → String → Option String) (endpoint : Backend → String)
    (targetUrl targetDomain : String) (backend type : Option String)
    (hurl : targetUrl ≠ "") (hhost : hostname targetUrl = some targetDomain)
    (hbackend : lookupBackend (orDefault backend "ultraviolet") ≠ BackendLookup.undefined)
    (hcheck : isGeForceNow targetDomain = false) :
    handleProxy hostname encodeUrl endpoint ⟨some targetUrl, backend, type⟩ =
      ProxyResult.json 403 "Target URL must be a GeForce Now domain" := by
  cases hl : lookupBackend (orDefault backend "ultraviolet") with
  | undefined => exact absurd hl hbackend
  | config b => simp [handleProxy, hurl, hhost, hcheck, hl]
  | inherited => simp [handleProxy, hurl, hhost, hcheck, hl]

/-- C14: the hostname `evilgeforcenow.com` is none of the four listed names and
does not end in `.geforcenow.com`, yet it passes the domain check, because the
wildcard entry is compared after `slice(2)`, without its dot.  With the
default backend the request for `https://evilgeforcenow.com/` is forwarded
(or fails in the encoder), and with `type=socks5` it is answered with the
SOCKS5 configuration; in neither case with the 403 response. -/
theorem lookalike_domain_passes (encodeUrl : Backend → String → Option String)
    (endpoint : Backend → String) :
    endsWith "evilgeforcenow.com" ".geforcenow.com" = false ∧
    isGeForceNow "evilgeforcenow.com" = true ∧
    handleProxy simpleHostname encodeUrl endpoint
        ⟨some "https://evilgeforcenow.com/", some "ultraviolet", none⟩ =
      (match encodeUrl Backend.ultraviolet "https://evilgeforcenow.com/" with
        | some encodedUrl => ProxyResult.forwarded (endpoint Backend.ultraviolet ++ encodedUrl)
        | none => proxyFailed) ∧
    handleProxy simpleHostname encodeUrl endpoint
        ⟨some "https://evilgeforcenow.com/", some "ultraviolet", none⟩ ≠
      ProxyResult.json 403 "Target URL must be a GeForce Now domain" ∧
    handleProxy simpleHostname encodeUrl endpoint
        ⟨some "https://evilgeforcenow.com/", some "ultraviolet", some "socks5"⟩ =
      ProxyResult.socks5Config := by
  have hhost : simpleHostname "https://evilgeforcenow.com/" = some "evilgeforcenow.com" := by
    decide
  have hcheck : isGeForceNow "evilgeforcenow.com" = true := by decide
  have hurl : ("https://evilgeforcenow.com/" : String) ≠ "" := by decide
  have hlookup : lookupBackend (orDefault (some "ultraviolet") "ultraviolet") =
      BackendLookup.config Backend.ultraviolet := by decide
  have hhttps : orDefault none "https" ≠ "socks5" := by decide
  have hsocks : orDefault (some "socks5") "https" = "socks5" := by decide
  have hfwd : handleProxy simpleHostname encodeUrl endpoint
      ⟨some "https://evilgeforcenow.com/", some "ultraviolet", none⟩ =
      (match encodeUrl Backend.ultraviolet "https://evilgeforcenow.com/" with
        | some encodedUrl => ProxyResult.forwarded (endpoint Backend.ultraviolet ++ encodedUrl)
        | none => proxyFailed) := by
    simp only [handleProxy, if_neg hurl, hlookup, hhost, hcheck, if_neg hhttps]
    simp
  refine ⟨by decide, hcheck, hfwd, ?_, ?_⟩
  · rw [hfwd]
    cases encodeUrl Backend.ultraviolet "https://evilgeforcenow.com/" <;> simp [proxyFailed]
  · simp only [handleProxy, if_neg hurl, hlookup, hhost, hcheck, hsocks]
    simp

end ProxyApi
